import Mathlib

/-!
Verification development for the cmake-file-api client library.

The development shallowly embeds the reply-graph loader of the library:
the JSON data model, the strict/lenient structural decoders derived from
the serde attributes on each Rust struct, the on-disk reply layout
(`reply::dir`, `reply::index_file`, `reply::is_available`,
`Reader::from_build_dir`, `Reader::read_object`), the codemodel-v2
reference resolver (`CodeModel::resolve_references`), and the query
writer (`query::Writer::write_stateless` / `write_stateful`).

Modelling conventions:
* JSON documents are values of the inductive `Json`; numbers carry `Int`
  (every schema field in scope is an integer type).
* Rust `PathBuf` is modelled as `String`; `PathBuf::join` with the
  relative right-hand operands used by this library is string
  concatenation with a separator.
* The filesystem is a concrete structure `FS`: existing directories with
  their enumeration order, readable files with their contents, plus
  explicit error sets for `read_dir` failures, unreadable entries and
  unreadable files.  File contents are either `.json j` (text that
  `serde_json::from_str` parses to the value `j`) or `.text s`
  (non-JSON text, on which `from_str` fails).
* `serde` derived deserializers are modelled per struct: a key scan that
  rejects duplicate known fields (and, for `deny_unknown_fields`
  structs, any unknown field), followed by per-field extraction with
  missing/`null`/default handling matching the field attributes.
* Fallible Rust functions returning `Result` become `Except`.
-/

set_option maxRecDepth 40000

namespace CMakeFileApi

/-- JSON values, the wire format of the protocol. -/
inductive Json where
  | null : Json
  | bool (b : Bool) : Json
  | num (n : Int) : Json
  | str (s : String) : Json
  | arr (elems : List Json) : Json
  | obj (fields : List (String × Json)) : Json
deriving Inhabited

/-- Content of a file on disk: either text that parses as the JSON value
`j`, or text that is not valid JSON (e.g. the empty string, or a
truncated document). -/
inductive FileData where
  | json (j : Json) : FileData
  | text (s : String) : FileData
deriving Inhabited

/-- First-error-wins effectful map over a list, the semantics of a Rust
`for` loop whose body ends in `?`. -/
def mapE (f : α → Except ε β) : List α → Except ε (List β)
  | [] => .ok []
  | x :: xs =>
    match f x with
    | .error e => .error e
    | .ok b =>
      match mapE f xs with
      | .error e => .error e
      | .ok bs => .ok (b :: bs)

/-- Look up the first occurrence of key `k` in a JSON object's field list. -/
def getField? (o : List (String × Json)) (k : String) : Option Json :=
  (o.find? (fun p => p.1 == k)).map Prod.snd

/-- Key scan performed by a serde-derived deserializer: visiting the
input fields in order, a repeated known field is a `duplicate field`
error; an unknown field is an `unknown field` error when the struct has
`deny_unknown_fields` (`strict = true`) and is skipped otherwise. -/
def scanKeys (strict : Bool) (known : List String) :
    List (String × Json) → List String → Except String Unit
  | [], _ => .ok ()
  | (k, _) :: rest, seen =>
    if known.contains k then
      if seen.contains k then .error ("duplicate field " ++ k)
      else scanKeys strict known rest (k :: seen)
    else if strict then .error ("unknown field " ++ k)
    else scanKeys strict known rest seen

/-- Decode a required struct field: missing key is an error. -/
def reqField (o : List (String × Json)) (k : String)
    (d : Json → Except String α) : Except String α :=
  match getField? o k with
  | some j => d j
  | none => .error ("missing field " ++ k)

/-- Decode a Rust `Option<T>` field: absent or `null` is `none`. -/
def optField (o : List (String × Json)) (k : String)
    (d : Json → Except String α) : Except String (Option α) :=
  match getField? o k with
  | none => .ok none
  | some .null => .ok none
  | some j => (d j).map some

/-- Decode a `#[serde(default)]` field: absent yields the default. -/
def defField (o : List (String × Json)) (k : String)
    (d : Json → Except String α) (dflt : α) : Except String α :=
  match getField? o k with
  | none => .ok dflt
  | some j => d j

/-- Decode a JSON string. -/
def dStr : Json → Except String String
  | .str s => .ok s
  | _ => .error "invalid type: expected string"

/-- Decode a Rust `PathBuf` (deserialized from a JSON string). -/
def dPath : Json → Except String String := dStr

/-- Decode a JSON boolean. -/
def dBool : Json → Except String Bool
  | .bool b => .ok b
  | _ => .error "invalid type: expected boolean"

/-- Decode a Rust `u32`. -/
def dU32 : Json → Except String Nat
  | .num n =>
    if 0 ≤ n ∧ n < 4294967296 then .ok n.toNat
    else .error "invalid value: out of range for u32"
  | _ => .error "invalid type: expected integer"

/-- Decode a Rust `usize` (64-bit). -/
def dUsize : Json → Except String Nat
  | .num n =>
    if 0 ≤ n ∧ n < 18446744073709551616 then .ok n.toNat
    else .error "invalid value: out of range for usize"
  | _ => .error "invalid type: expected integer"

/-- Decode a Rust `i32`. -/
def dI32 : Json → Except String Int
  | .num n =>
    if -2147483648 ≤ n ∧ n < 2147483648 then .ok n
    else .error "invalid value: out of range for i32"
  | _ => .error "invalid type: expected integer"

/-- Decode a JSON array elementwise (Rust `Vec<T>`). -/
def dList (d : Json → Except String α) : Json → Except String (List α)
  | .arr xs => mapE d xs
  | _ => .error "invalid type: expected array"

/-- Decode a `serde_json::Value`: always succeeds with the value itself. -/
def dValue : Json → Except String Json := .ok

/-- `objects::ObjectKind`: the closed set of object kinds. -/
inductive ObjectKind where
  | CodeModel : ObjectKind
  | Toolchains : ObjectKind
  | Cache : ObjectKind
  | CMakeFiles : ObjectKind
  | ConfigureLog : ObjectKind
deriving DecidableEq, Inhabited

/-- `ObjectKind::as_str`: the wire tag of each kind. -/
def ObjectKind.as_str : ObjectKind → String
  | .CodeModel => "codemodel"
  | .Toolchains => "toolchains"
  | .Cache => "cache"
  | .CMakeFiles => "cmakeFiles"
  | .ConfigureLog => "configureLog"

/-- Deserialize `ObjectKind` from its serde rename strings. -/
def decodeObjectKind : Json → Except String ObjectKind
  | .str s =>
    if s = "codemodel" then .ok .CodeModel
    else if s = "toolchains" then .ok .Toolchains
    else if s = "cache" then .ok .Cache
    else if s = "cmakeFiles" then .ok .CMakeFiles
    else if s = "configureLog" then .ok .ConfigureLog
    else .error ("unknown variant " ++ s)
  | _ => .error "invalid type: expected string"

/-- `objects::MajorMinor` (no `deny_unknown_fields`). -/
structure MajorMinor where
  major : Nat
  minor : Nat
deriving DecidableEq, Inhabited

/-- Deserializer of `MajorMinor` (lenient about unknown fields). -/
def decodeMajorMinor : Json → Except String MajorMinor
  | .obj o => do
    let _ ← scanKeys false ["major", "minor"] o []
    let major ← reqField o "major" dU32
    let minor ← reqField o "minor" dU32
    .ok { major := major, minor := minor }
  | _ => .error "invalid type: expected object"

/-- `index::CMakeVersion` (`deny_unknown_fields`). -/
structure CMakeVersion where
  major : Int
  minor : Int
  patch : Int
  suffix : String
  string : String
  is_dirty : Bool
deriving DecidableEq, Inhabited

/-- Deserializer of `CMakeVersion` (strict). -/
def decodeCMakeVersion : Json → Except String CMakeVersion
  | .obj o => do
    let _ ← scanKeys true ["major", "minor", "patch", "suffix", "string", "isDirty"] o []
    let major ← reqField o "major" dI32
    let minor ← reqField o "minor" dI32
    let patch ← reqField o "patch" dI32
    let suffix ← reqField o "suffix" dStr
    let string ← reqField o "string" dStr
    let is_dirty ← reqField o "isDirty" dBool
    .ok { major := major, minor := minor, patch := patch, suffix := suffix,
          string := string, is_dirty := is_dirty }
  | _ => .error "invalid type: expected object"

/-- `index::CMakePaths` (`deny_unknown_fields`). -/
structure CMakePaths where
  cmake : String
  ctest : String
  cpack : String
  root : String
deriving DecidableEq, Inhabited

/-- Deserializer of `CMakePaths` (strict). -/
def decodeCMakePaths : Json → Except String CMakePaths
  | .obj o => do
    let _ ← scanKeys true ["cmake", "ctest", "cpack", "root"] o []
    let cmake ← reqField o "cmake" dPath
    let ctest ← reqField o "ctest" dPath
    let cpack ← reqField o "cpack" dPath
    let root ← reqField o "root" dPath
    .ok { cmake := cmake, ctest := ctest, cpack := cpack, root := root }
  | _ => .error "invalid type: expected object"

/-- `index::CMakeGenerator` (`deny_unknown_fields`). -/
structure CMakeGenerator where
  multi_config : Bool
  name : String
  platform : Option String
deriving DecidableEq, Inhabited

/-- Deserializer of `CMakeGenerator` (strict). -/
def decodeCMakeGenerator : Json → Except String CMakeGenerator
  | .obj o => do
    let _ ← scanKeys true ["multiConfig", "name", "platform"] o []
    let multi_config ← reqField o "multiConfig" dBool
    let name ← reqField o "name" dStr
    let platform ← optField o "platform" dStr
    .ok { multi_config := multi_config, name := name, platform := platform }
  | _ => .error "invalid type: expected object"

/-- `index::CMake` (`deny_unknown_fields`). -/
structure CMake where
  version : CMakeVersion
  paths : CMakePaths
  generator : CMakeGenerator
deriving DecidableEq, Inhabited

/-- Deserializer of `CMake` (strict). -/
def decodeCMake : Json → Except String CMake
  | .obj o => do
    let _ ← scanKeys true ["version", "paths", "generator"] o []
    let version ← reqField o "version" decodeCMakeVersion
    let paths ← reqField o "paths" decodeCMakePaths
    let generator ← reqField o "generator" decodeCMakeGenerator
    .ok { version := version, paths := paths, generator := generator }
  | _ => .error "invalid type: expected object"

/-- `index::ReplyFileReference` (`deny_unknown_fields`). -/
structure ReplyFileReference where
  kind : ObjectKind
  version : MajorMinor
  json_file : String
deriving DecidableEq, Inhabited

/-- Deserializer of `ReplyFileReference` (strict). -/
def decodeReplyFileReference : Json → Except String ReplyFileReference
  | .obj o => do
    let _ ← scanKeys true ["kind", "version", "jsonFile"] o []
    let kind ← reqField o "kind" decodeObjectKind
    let version ← reqField o "version" decodeMajorMinor
    let json_file ← reqField o "jsonFile" dPath
    .ok { kind := kind, version := version, json_file := json_file }
  | _ => .error "invalid type: expected object"

/-- `index::Error` (`deny_unknown_fields`). -/
structure Error where
  error : String
deriving DecidableEq, Inhabited

/-- Deserializer of `index::Error` (strict). -/
def decodeError : Json → Except String Error
  | .obj o => do
    let _ ← scanKeys true ["error"] o []
    let error ← reqField o "error" dStr
    .ok { error := error }
  | _ => .error "invalid type: expected object"

/-- `index::QueryJson` (`deny_unknown_fields`; all fields `Option<Value>`). -/
structure QueryJson where
  client : Option Json
  requests : Option Json
  responses : Option Json
deriving Inhabited

/-- Deserializer of `QueryJson` (strict). -/
def decodeQueryJson : Json → Except String QueryJson
  | .obj o => do
    let _ ← scanKeys true ["client", "requests", "responses"] o []
    let client ← optField o "client" dValue
    let requests ← optField o "requests" dValue
    let responses ← optField o "responses" dValue
    .ok { client := client, requests := requests, responses := responses }
  | _ => .error "invalid type: expected object"

/-- `index::ClientField`: untagged union of the three client-reply shapes. -/
inductive ClientField where
  | Error (e : Error) : ClientField
  | ReplyFileReference (r : ReplyFileReference) : ClientField
  | QueryJson (q : QueryJson) : ClientField

/-- Deserializer of `ClientField`: serde `untagged` tries the variants in
declaration order and returns the first success. -/
def decodeClientField (j : Json) : Except String ClientField :=
  match decodeError j with
  | .ok e => .ok (.Error e)
  | .error _ =>
    match decodeReplyFileReference j with
    | .ok r => .ok (.ReplyFileReference r)
    | .error _ =>
      match decodeQueryJson j with
      | .ok q => .ok (.QueryJson q)
      | .error _ => .error "data did not match any variant of untagged enum ClientField"

/-- `index::ReplyField`: untagged union of the reply-mapping value shapes.
The `Client` map (`HashMap<String, ClientField>`) is modelled as an
association list in input order. -/
inductive ReplyField where
  | Error (e : Error) : ReplyField
  | ReplyFileReference (r : ReplyFileReference) : ReplyField
  | Client (m : List (String × ClientField)) : ReplyField
  | Unknown : ReplyField

/-- Deserializer of the `Client` variant payload: a JSON object each of
whose values deserializes as a `ClientField`. -/
def decodeClientMap (j : Json) : Except String (List (String × ClientField)) :=
  match j with
  | .obj o => mapE (fun p => (decodeClientField p.2).map (fun c => (p.1, c))) o
  | _ => .error "invalid type: expected map"

/-- Deserializer of `ReplyField`: serde `untagged` tries `Error`,
`ReplyFileReference`, `Client` in order; the trailing unit variant
`Unknown` deserializes only from JSON `null`. -/
def decodeReplyField (j : Json) : Except String ReplyField :=
  match decodeError j with
  | .ok e => .ok (.Error e)
  | .error _ =>
    match decodeReplyFileReference j with
    | .ok r => .ok (.ReplyFileReference r)
    | .error _ =>
      match decodeClientMap j with
      | .ok m => .ok (.Client m)
      | .error _ =>
        match j with
        | .null => .ok .Unknown
        | _ => .error "data did not match any variant of untagged enum ReplyField"

/-- `index::Index` (`deny_unknown_fields`); `reply` is modelled as an
association list in input order. -/
structure Index where
  cmake : CMake
  objects : List ReplyFileReference
  reply : List (String × ReplyField)

/-- Deserializer of `Index` (strict). -/
def decodeIndex : Json → Except String Index
  | .obj o => do
    let _ ← scanKeys true ["cmake", "objects", "reply"] o []
    let cmake ← reqField o "cmake" decodeCMake
    let objects ← reqField o "objects" (dList decodeReplyFileReference)
    let reply ←
      match getField? o "reply" with
      | some (.obj m) => mapE (fun p => (decodeReplyField p.2).map (fun c => (p.1, c))) m
      | some _ => .error "invalid type: expected map"
      | none => .error "missing field reply"
    .ok { cmake := cmake, objects := objects, reply := reply }
  | _ => .error "invalid type: expected object"

/-- `reply::ReaderError`: the error taxonomy of the reply reader.
`IOError` (named `IO` in the source) carries the description of the
underlying `io::Error`; `Parse` carries the `serde_json::Error`
message. -/
inductive ReaderError where
  | IOError (msg : String) : ReaderError
  | Parse (msg : String) : ReaderError
  | FileApiNotGenerated : ReaderError
  | ObjectNotFound : ReaderError
deriving DecidableEq, Inhabited

/-- One entry yielded by `fs::read_dir`: the file name within the
directory (so `entry.path()` is the directory joined with `name`) and
the result of `path.is_file()`. -/
structure DirEntry where
  name : String
  isFile : Bool
deriving DecidableEq, Inhabited

/-- Concrete filesystem state.  `dirs` lists the existing directories
with their enumeration in platform order; a `none` entry is a directory
entry whose `Result` is an error.  `files` maps existing readable file
paths to their contents; `ioErrorFiles` are paths whose
`fs::read_to_string` fails; `readDirFails` are directories on which
`fs::read_dir` itself returns an error. -/
structure FS where
  dirs : List (String × List (Option DirEntry))
  files : List (String × FileData)
  ioErrorFiles : List String
  readDirFails : List String

/-- `PathBuf::join` for the relative right-hand operands used by the
library. -/
def pathJoin (a b : String) : String := a ++ "/" ++ b

/-- `str::starts_with`, modelled on the character list. -/
def strStartsWith (s pre : String) : Bool := pre.toList.isPrefixOf s.toList

/-- Lower-case the ASCII letters of a string. -/
def lowerAscii (s : String) : String :=
  String.mk (s.toList.map (fun c =>
    if 'A' ≤ c ∧ c ≤ 'Z' then Char.ofNat (c.toNat + 32) else c))

/-- `str::eq_ignore_ascii_case`. -/
def eqIgnoreAsciiCase (a b : String) : Bool :=
  lowerAscii a == lowerAscii b

/-- `Path::extension` of a file name: the portion after the last `.`,
except that a `.` at the start of the name does not begin an
extension. -/
def rustExtension (f : String) : Option String :=
  let cs := f.toList
  let ext := (cs.reverse.takeWhile (fun c => c ≠ '.')).reverse
  if ext.length = cs.length then none
  else if cs.length - ext.length = 1 then none
  else some (String.mk ext)

/-- Does path `p` exist on `fs` (as a directory or as a file)? -/
def fsExists (fs : FS) (p : String) : Bool :=
  (fs.dirs.find? (fun d => d.1 == p)).isSome
    || (fs.files.find? (fun f => f.1 == p)).isSome
    || fs.ioErrorFiles.contains p

/-- `fs::read_dir`: `none` models an `Err` result (directory missing,
not a directory, or listed in `readDirFails`). -/
def fsReadDir (fs : FS) (p : String) : Option (List (Option DirEntry)) :=
  if fs.readDirFails.contains p then none
  else (fs.dirs.find? (fun d => d.1 == p)).map Prod.snd

/-- `fs::read_to_string`, surfacing `io::Error` for missing or
unreadable paths.  The first matching `files` entry wins, so writes can
shadow older entries. -/
def fsReadToString (fs : FS) (p : String) : Except ReaderError FileData :=
  match fs.files.find? (fun f => f.1 == p) with
  | some f => .ok f.2
  | none =>
    if fs.ioErrorFiles.contains p then .error (.IOError "permission denied")
    else .error (.IOError "no such file or directory")

/-- `reply::dir`: the reply directory of a build directory. -/
def replyDir (build_dir : String) : String :=
  pathJoin (pathJoin (pathJoin (pathJoin build_dir ".cmake") "api") "v1") "reply"

/-- The predicate applied by `reply::index_file` to one directory entry:
a regular file whose name starts with `index-` and whose extension
equals `json` ignoring ASCII case.  An errored entry (`none`) makes the
closure return `None` via `entry.ok()?`, so enumeration skips it. -/
def indexEntryMatch (reply_dir : String) : Option DirEntry → Option String
  | none => none
  | some ent =>
    if ent.isFile then
      if strStartsWith ent.name "index-"
          && (match rustExtension ent.name with
              | some ext => eqIgnoreAsciiCase ext "json"
              | none => false) then
        some (pathJoin reply_dir ent.name)
      else none
    else none

/-- `reply::index_file`: locate the index file of a build directory. -/
def index_file (fs : FS) (build_dir : String) : Option String :=
  let reply_dir := replyDir build_dir
  if !fsExists fs reply_dir then none
  else
    match fsReadDir fs reply_dir with
    | none => none
    | some entries => entries.findSome? (indexEntryMatch reply_dir)

/-- `reply::is_available`. -/
def is_available (fs : FS) (build_dir : String) : Bool :=
  (index_file fs build_dir).isSome

/-- `Reader::parse_reply`, parameterized by the object type's
deserializer: read the file, parse its text as JSON and decode. -/
def parse_reply (dec : Json → Except String α) (fs : FS) (reply_file : String) :
    Except ReaderError α :=
  match fsReadToString fs reply_file with
  | .error e => .error e
  | .ok (.json j) =>
    match dec j with
    | .ok a => .ok a
    | .error m => .error (.Parse m)
  | .ok (.text _) => .error (.Parse "expected value")

/-- `reply::Reader`: build directory plus parsed index. -/
structure Reader where
  build_dir : String
  index : Index

/-- `Reader::from_build_dir`. -/
def from_build_dir (fs : FS) (build_dir : String) : Except ReaderError Reader :=
  match index_file fs build_dir with
  | none => .error .FileApiNotGenerated
  | some f =>
    match parse_reply decodeIndex fs f with
    | .error e => .error e
    | .ok idx => .ok { build_dir := build_dir, index := idx }

/-- `Reader::find_object`: first catalog entry with the requested kind
and major version. -/
def find_object (r : Reader) (kind : ObjectKind) (major : Nat) :
    Option ReplyFileReference :=
  r.index.objects.find? (fun o => o.kind == kind && o.version.major == major)

/-- One object kind's static data and behavior, the counterpart of the
Rust `objects::Object` trait bound used by `Reader::read_object`:
wire tag kind, required major version, serde deserializer, and the
kind's `resolve_references` step (the trait's default is
`fun _ _ o => .ok o`). -/
structure ObjectImpl (α : Type) where
  kind : ObjectKind
  major : Nat
  decode : Json → Except String α
  resolve_references : FS → Reader → α → Except ReaderError α

/-- `Reader::read_object::<T>`. -/
def read_object (T : ObjectImpl α) (fs : FS) (r : Reader) : Except ReaderError α :=
  match find_object r T.kind T.major with
  | none => .error .ObjectNotFound
  | some reply_reference =>
    match parse_reply T.decode fs
        (pathJoin (replyDir r.build_dir) reply_reference.json_file) with
    | .error e => .error e
    | .ok object => T.resolve_references fs r object

/-- `Reader::has_object::<T>`. -/
def has_object (T : ObjectImpl α) (r : Reader) : Bool :=
  (find_object r T.kind T.major).isSome

/-- `codemodel_v2::backtrace_graph::Node`. -/
structure Node where
  file : Nat
  line : Option Nat
  command : Option Nat
  parent : Option Nat
deriving DecidableEq, Inhabited

/-- Deserializer of `Node` (lenient). -/
def decodeNode : Json → Except String Node
  | .obj o => do
    let _ ← scanKeys false ["file", "line", "command", "parent"] o []
    let file ← reqField o "file" dUsize
    let line ← optField o "line" dUsize
    let command ← optField o "command" dUsize
    let parent ← optField o "parent" dUsize
    .ok { file := file, line := line, command := command, parent := parent }
  | _ => .error "invalid type: expected object"

/-- `codemodel_v2::backtrace_graph::BacktraceGraph`. -/
structure BacktraceGraph where
  nodes : List Node
  commands : List String
  files : List String
deriving DecidableEq, Inhabited

/-- Deserializer of `BacktraceGraph` (lenient). -/
def decodeBacktraceGraph : Json → Except String BacktraceGraph
  | .obj o => do
    let _ ← scanKeys false ["nodes", "commands", "files"] o []
    let nodes ← reqField o "nodes" (dList decodeNode)
    let commands ← reqField o "commands" (dList dStr)
    let files ← reqField o "files" (dList dPath)
    .ok { nodes := nodes, commands := commands, files := files }
  | _ => .error "invalid type: expected object"

/-- `codemodel_v2::target::Folder`. -/
structure Folder where
  name : String
deriving DecidableEq, Inhabited

/-- Deserializer of `Folder` (lenient). -/
def decodeFolder : Json → Except String Folder
  | .obj o => do
    let _ ← scanKeys false ["name"] o []
    let name ← reqField o "name" dStr
    .ok { name := name }
  | _ => .error "invalid type: expected object"

/-- `codemodel_v2::target::TargetPaths`. -/
structure TargetPaths where
  build : String
  source : String
deriving DecidableEq, Inhabited

/-- Deserializer of `TargetPaths` (lenient). -/
def decodeTargetPaths : Json → Except String TargetPaths
  | .obj o => do
    let _ ← scanKeys false ["build", "source"] o []
    let build ← reqField o "build" dPath
    let source ← reqField o "source" dPath
    .ok { build := build, source := source }
  | _ => .error "invalid type: expected object"

/-- `codemodel_v2::target::Artifact`. -/
structure Artifact where
  path : String
deriving DecidableEq, Inhabited

/-- Deserializer of `Artifact` (lenient). -/
def decodeArtifact : Json → Except String Artifact
  | .obj o => do
    let _ ← scanKeys false ["path"] o []
    let path ← reqField o "path" dPath
    .ok { path := path }
  | _ => .error "invalid type: expected object"

/-- `codemodel_v2::target::Prefix` (field `path` holds the value of
`CMAKE_INSTALL_PREFIX`). -/
structure InstallPrefix where
  path : String
deriving DecidableEq, Inhabited

/-- Deserializer of the install prefix record (lenient). -/
def decodeInstallPrefix : Json → Except String InstallPrefix
  | .obj o => do
    let _ ← scanKeys false ["path"] o []
    let path ← reqField o "path" dPath
    .ok { path := path }
  | _ => .error "invalid type: expected object"

/-- `codemodel_v2::target::Destination`. -/
structure Destination where
  path : String
  backtrace : Option Nat
deriving DecidableEq, Inhabited

/-- Deserializer of `Destination` (lenient). -/
def decodeDestination : Json → Except String Destination
  | .obj o => do
    let _ ← scanKeys false ["path", "backtrace"] o []
    let path ← reqField o "path" dPath
    let backtrace ← optField o "backtrace" dUsize
    .ok { path := path, backtrace := backtrace }
  | _ => .error "invalid type: expected object"

/-- `codemodel_v2::target::Install` (the `prefix` field is named
`prefix_path` here). -/
structure Install where
  prefix_path : InstallPrefix
  destinations : List Destination
deriving DecidableEq, Inhabited

/-- Deserializer of `Install` (lenient). -/
def decodeInstall : Json → Except String Install
  | .obj o => do
    let _ ← scanKeys false ["prefix", "destinations"] o []
    let p ← reqField o "prefix" decodeInstallPrefix
    let destinations ← defField o "destinations" (dList decodeDestination) []
    .ok { prefix_path := p, destinations := destinations }
  | _ => .error "invalid type: expected object"

/-- `codemodel_v2::target::Launcher`. -/
structure Launcher where
  command : String
  arguments : List String
  launcher_type : String
deriving DecidableEq, Inhabited

/-- Deserializer of `Launcher` (lenient). -/
def decodeLauncher : Json → Except String Launcher
  | .obj o => do
    let _ ← scanKeys false ["command", "arguments", "launcherType"] o []
    let command ← reqField o "command" dStr
    let arguments ← defField o "arguments" (dList dStr) []
    let launcher_type ← reqField o "launcherType" dStr
    .ok { command := command, arguments := arguments, launcher_type := launcher_type }
  | _ => .error "invalid type: expected object"

/-- `codemodel_v2::target::CommandFragment`. -/
structure CommandFragment where
  fragment : String
  role : String
deriving DecidableEq, Inhabited

/-- Deserializer of `CommandFragment` (lenient). -/
def decodeCommandFragment : Json → Except String CommandFragment
  | .obj o => do
    let _ ← scanKeys false ["fragment", "role"] o []
    let fragment ← reqField o "fragment" dStr
    let role ← reqField o "role" dStr
    .ok { fragment := fragment, role := role }
  | _ => .error "invalid type: expected object"

/-- `codemodel_v2::target::SysRootPath`. -/
structure SysRootPath where
  path : String
deriving DecidableEq, Inhabited

/-- Deserializer of `SysRootPath` (lenient). -/
def decodeSysRootPath : Json → Except String SysRootPath
  | .obj o => do
    let _ ← scanKeys false ["path"] o []
    let path ← reqField o "path" dPath
    .ok { path := path }
  | _ => .error "invalid type: expected object"

/-- `codemodel_v2::target::Link`. -/
structure Link where
  language : String
  command_fragments : List CommandFragment
  lto : Bool
  sysroot : Option SysRootPath
deriving DecidableEq, Inhabited

/-- Deserializer of `Link` (lenient). -/
def decodeLink : Json → Except String Link
  | .obj o => do
    let _ ← scanKeys false ["language", "commandFragments", "lto", "sysroot"] o []
    let language ← reqField o "language" dStr
    let command_fragments ← defField o "commandFragments" (dList decodeCommandFragment) []
    let lto ← defField o "lto" dBool false
    let sysroot ← optField o "sysroot" decodeSysRootPath
    .ok { language := language, command_fragments := command_fragments,
          lto := lto, sysroot := sysroot }
  | _ => .error "invalid type: expected object"

/-- `codemodel_v2::target::Archive`. -/
structure Archive where
  command_fragments : List CommandFragment
  lto : Bool
deriving DecidableEq, Inhabited

/-- Deserializer of `Archive` (lenient). -/
def decodeArchive : Json → Except String Archive
  | .obj o => do
    let _ ← scanKeys false ["commandFragments", "lto"] o []
    let command_fragments ← defField o "commandFragments" (dList decodeCommandFragment) []
    let lto ← defField o "lto" dBool false
    .ok { command_fragments := command_fragments, lto := lto }
  | _ => .error "invalid type: expected object"

/-- `codemodel_v2::target::Dependency`. -/
structure Dependency where
  id : String
  backtrace : Option Nat
deriving DecidableEq, Inhabited

/-- Deserializer of `Dependency` (lenient). -/
def decodeDependency : Json → Except String Dependency
  | .obj o => do
    let _ ← scanKeys false ["id", "backtrace"] o []
    let id ← reqField o "id" dStr
    let backtrace ← optField o "backtrace" dUsize
    .ok { id := id, backtrace := backtrace }
  | _ => .error "invalid type: expected object"

/-- `codemodel_v2::target::FileSet`. -/
structure FileSet where
  name : String
  type_name : String
  visibility : String
  base_directories : List String
deriving DecidableEq, Inhabited

/-- Deserializer of `FileSet` (lenient). -/
def decodeFileSet : Json → Except String FileSet
  | .obj o => do
    let _ ← scanKeys false ["name", "type", "visibility", "baseDirectories"] o []
    let name ← reqField o "name" dStr
    let type_name ← reqField o "type" dStr
    let visibility ← reqField o "visibility" dStr
    let base_directories ← reqField o "baseDirectories" (dList dStr)
    .ok { name := name, type_name := type_name, visibility := visibility,
          base_directories := base_directories }
  | _ => .error "invalid type: expected object"

/-- `codemodel_v2::target::Source`. -/
structure Source where
  path : String
  compile_group_index : Option Nat
  source_group_index : Option Nat
  is_generated : Bool
  file_set_index : Option Nat
  backtrace : Option Nat
deriving DecidableEq, Inhabited

/-- Deserializer of `Source` (lenient). -/
def decodeSource : Json → Except String Source
  | .obj o => do
    let _ ← scanKeys false
      ["path", "compileGroupIndex", "sourceGroupIndex", "isGenerated",
       "fileSetIndex", "backtrace"] o []
    let path ← reqField o "path" dPath
    let compile_group_index ← optField o "compileGroupIndex" dUsize
    let source_group_index ← optField o "sourceGroupIndex" dUsize
    let is_generated ← defField o "isGenerated" dBool false
    let file_set_index ← optField o "fileSetIndex" dUsize
    let backtrace ← optField o "backtrace" dUsize
    .ok { path := path, compile_group_index := compile_group_index,
          source_group_index := source_group_index, is_generated := is_generated,
          file_set_index := file_set_index, backtrace := backtrace }
  | _ => .error "invalid type: expected object"

/-- `codemodel_v2::target::SourceGroup`. -/
structure SourceGroup where
  name : String
  source_indexes : List Nat
deriving DecidableEq, Inhabited

/-- Deserializer of `SourceGroup` (lenient). -/
def decodeSourceGroup : Json → Except String SourceGroup
  | .obj o => do
    let _ ← scanKeys false ["name", "sourceIndexes"] o []
    let name ← reqField o "name" dStr
    let source_indexes ← reqField o "sourceIndexes" (dList dUsize)
    .ok { name := name, source_indexes := source_indexes }
  | _ => .error "invalid type: expected object"

/-- `codemodel_v2::target::LanguageStandard`. -/
structure LanguageStandard where
  backtraces : List Nat
  standard : String
deriving DecidableEq, Inhabited

/-- Deserializer of `LanguageStandard` (lenient). -/
def decodeLanguageStandard : Json → Except String LanguageStandard
  | .obj o => do
    let _ ← scanKeys false ["backtraces", "standard"] o []
    let backtraces ← defField o "backtraces" (dList dUsize) []
    let standard ← reqField o "standard" dStr
    .ok { backtraces := backtraces, standard := standard }
  | _ => .error "invalid type: expected object"

/-- `codemodel_v2::target::CompileCommandFragment`. -/
structure CompileCommandFragment where
  fragment : String
deriving DecidableEq, Inhabited

/-- Deserializer of `CompileCommandFragment` (lenient). -/
def decodeCompileCommandFragment : Json → Except String CompileCommandFragment
  | .obj o => do
    let _ ← scanKeys false ["fragment"] o []
    let fragment ← reqField o "fragment" dStr
    .ok { fragment := fragment }
  | _ => .error "invalid type: expected object"

/-- `codemodel_v2::target::Include`. -/
structure Include where
  path : String
  is_system : Bool
  backtrace : Option Nat
deriving DecidableEq, Inhabited

/-- Deserializer of `Include` (lenient). -/
def decodeInclude : Json → Except String Include
  | .obj o => do
    let _ ← scanKeys false ["path", "isSystem", "backtrace"] o []
    let path ← reqField o "path" dPath
    let is_system ← defField o "isSystem" dBool false
    let backtrace ← optField o "backtrace" dUsize
    .ok { path := path, is_system := is_system, backtrace := backtrace }
  | _ => .error "invalid type: expected object"

/-- `codemodel_v2::target::Framework`. -/
structure Framework where
  path : String
  is_system : Bool
  backtrace : Option Nat
deriving DecidableEq, Inhabited

/-- Deserializer of `Framework` (lenient). -/
def decodeFramework : Json → Except String Framework
  | .obj o => do
    let _ ← scanKeys false ["path", "isSystem", "backtrace"] o []
    let path ← reqField o "path" dPath
    let is_system ← defField o "isSystem" dBool false
    let backtrace ← optField o "backtrace" dUsize
    .ok { path := path, is_system := is_system, backtrace := backtrace }
  | _ => .error "invalid type: expected object"

/-- `codemodel_v2::target::PrecompileHeader`. -/
structure PrecompileHeader where
  header : String
  backtrace : Option Nat
deriving DecidableEq, Inhabited

/-- Deserializer of `PrecompileHeader` (lenient). -/
def decodePrecompileHeader : Json → Except String PrecompileHeader
  | .obj o => do
    let _ ← scanKeys false ["header", "backtrace"] o []
    let header ← reqField o "header" dPath
    let backtrace ← optField o "backtrace" dUsize
    .ok { header := header, backtrace := backtrace }
  | _ => .error "invalid type: expected object"

/-- `codemodel_v2::target::Define`. -/
structure Define where
  define : String
  backtrace : Option Nat
deriving DecidableEq, Inhabited

/-- Deserializer of `Define` (lenient). -/
def decodeDefine : Json → Except String Define
  | .obj o => do
    let _ ← scanKeys false ["define", "backtrace"] o []
    let define ← reqField o "define" dStr
    let backtrace ← optField o "backtrace" dUsize
    .ok { define := define, backtrace := backtrace }
  | _ => .error "invalid type: expected object"

/-- `codemodel_v2::target::CompileGroup`. -/
structure CompileGroup where
  source_indexes : List Nat
  language : String
  language_standard : Option LanguageStandard
  compile_command_fragments : List CompileCommandFragment
  includes : List Include
  frameworks : List Framework
  precompile_headers : List PrecompileHeader
  defines : List Define
  sysroot : Option SysRootPath
deriving DecidableEq, Inhabited

/-- Deserializer of `CompileGroup` (lenient). -/
def decodeCompileGroup : Json → Except String CompileGroup
  | .obj o => do
    let _ ← scanKeys false
      ["sourceIndexes", "language", "languageStandard", "compileCommandFragments",
       "includes", "frameworks", "precompileHeaders", "defines", "sysroot"] o []
    let source_indexes ← reqField o "sourceIndexes" (dList dUsize)
    let language ← reqField o "language" dStr
    let language_standard ← optField o "languageStandard" decodeLanguageStandard
    let compile_command_fragments ←
      defField o "compileCommandFragments" (dList decodeCompileCommandFragment) []
    let includes ← defField o "includes" (dList decodeInclude) []
    let frameworks ← defField o "frameworks" (dList decodeFramework) []
    let precompile_headers ← defField o "precompileHeaders" (dList decodePrecompileHeader) []
    let defines ← defField o "defines" (dList decodeDefine) []
    let sysroot ← optField o "sysroot" decodeSysRootPath
    .ok { source_indexes := source_indexes, language := language,
          language_standard := language_standard,
          compile_command_fragments := compile_command_fragments,
          includes := includes, frameworks := frameworks,
          precompile_headers := precompile_headers, defines := defines,
          sysroot := sysroot }
  | _ => .error "invalid type: expected object"

/-- `codemodel_v2::target::Target`: the satellite target object. -/
structure Target where
  name : String
  id : String
  type_name : String
  backtrace : Option Nat
  folder : Option Folder
  paths : TargetPaths
  name_on_disk : Option String
  artifacts : List Artifact
  is_generator_provided : Bool
  install : Option Install
  launchers : List Launcher
  link : Option Link
  archive : Option Archive
  dependencies : List Dependency
  file_sets : List FileSet
  sources : List Source
  source_groups : List SourceGroup
  compile_groups : List CompileGroup
  backtrace_graph : BacktraceGraph
deriving DecidableEq, Inhabited

/-- Deserializer of `Target` (lenient). -/
def decodeTarget : Json → Except String Target
  | .obj o => do
    let _ ← scanKeys false
      ["name", "id", "type", "backtrace", "folder", "paths", "nameOnDisk",
       "artifacts", "isGeneratorProvided", "install", "launchers", "link",
       "archive", "dependencies", "fileSets", "sources", "sourceGroups",
       "compileGroups", "backtraceGraph"] o []
    let name ← reqField o "name" dStr
    let id ← reqField o "id" dStr
    let type_name ← reqField o "type" dStr
    let backtrace ← optField o "backtrace" dUsize
    let folder ← optField o "folder" decodeFolder
    let paths ← reqField o "paths" decodeTargetPaths
    let name_on_disk ← optField o "nameOnDisk" dStr
    let artifacts ← defField o "artifacts" (dList decodeArtifact) []
    let is_generator_provided ← defField o "isGeneratorProvided" dBool false
    let install ← optField o "install" decodeInstall
    let launchers ← defField o "launchers" (dList decodeLauncher) []
    let link ← optField o "link" decodeLink
    let archive ← optField o "archive" decodeArchive
    let dependencies ← defField o "dependencies" (dList decodeDependency) []
    let file_sets ← defField o "fileSets" (dList decodeFileSet) []
    let sources ← defField o "sources" (dList decodeSource) []
    let source_groups ← defField o "sourceGroups" (dList decodeSourceGroup) []
    let compile_groups ← defField o "compileGroups" (dList decodeCompileGroup) []
    let backtrace_graph ← reqField o "backtraceGraph" decodeBacktraceGraph
    .ok { name := name, id := id, type_name := type_name, backtrace := backtrace,
          folder := folder, paths := paths, name_on_disk := name_on_disk,
          artifacts := artifacts, is_generator_provided := is_generator_provided,
          install := install, launchers := launchers, link := link,
          archive := archive, dependencies := dependencies, file_sets := file_sets,
          sources := sources, source_groups := source_groups,
          compile_groups := compile_groups, backtrace_graph := backtrace_graph }
  | _ => .error "invalid type: expected object"

/-- `codemodel_v2::directory::DirectoryPaths`. -/
structure DirectoryPaths where
  build : String
  source : String
deriving DecidableEq, Inhabited

/-- Deserializer of `DirectoryPaths` (lenient). -/
def decodeDirectoryPaths : Json → Except String DirectoryPaths
  | .obj o => do
    let _ ← scanKeys false ["build", "source"] o []
    let build ← reqField o "build" dPath
    let source ← reqField o "source" dPath
    .ok { build := build, source := source }
  | _ => .error "invalid type: expected object"

/-- `codemodel_v2::directory::TargetIdAndIndex`. -/
structure TargetIdAndIndex where
  id : String
  index : Nat
deriving DecidableEq, Inhabited

/-- Deserializer of `TargetIdAndIndex` (lenient). -/
def decodeTargetIdAndIndex : Json → Except String TargetIdAndIndex
  | .obj o => do
    let _ ← scanKeys false ["id", "index"] o []
    let id ← reqField o "id" dStr
    let index ← reqField o "index" dUsize
    .ok { id := id, index := index }
  | _ => .error "invalid type: expected object"

/-- `codemodel_v2::directory::FromToPaths`. -/
structure FromToPaths where
  from_path : String
  to_path : String
deriving DecidableEq, Inhabited

/-- Deserializer of `FromToPaths` (lenient; the Rust fields are named
`from` and `to`, keywords in Lean). -/
def decodeFromToPaths : Json → Except String FromToPaths
  | .obj o => do
    let _ ← scanKeys false ["from", "to"] o []
    let f ← reqField o "from" dPath
    let t ← reqField o "to" dPath
    .ok { from_path := f, to_path := t }
  | _ => .error "invalid type: expected object"

/-- `codemodel_v2::directory::InstallPath`: untagged union of a bare
path string and a from/to pair. -/
inductive InstallPath where
  | PathCombination (s : String) : InstallPath
  | FromTo (p : FromToPaths) : InstallPath
deriving DecidableEq, Inhabited

/-- Deserializer of `InstallPath`: serde `untagged`, variants tried in
declaration order. -/
def decodeInstallPath (j : Json) : Except String InstallPath :=
  match dStr j with
  | .ok s => .ok (.PathCombination s)
  | .error _ =>
    match decodeFromToPaths j with
    | .ok p => .ok (.FromTo p)
    | .error _ => .error "data did not match any variant of untagged enum InstallPath"

/-- `codemodel_v2::directory::Installer`. -/
structure Installer where
  component : String
  destination : Option String
  paths : List InstallPath
  installer_type : String
  is_exclude_from_all : Bool
  is_for_all_components : Bool
  is_optional : Bool
  target_id : Option String
  target_index : Option Nat
  target_is_import_library : Bool
  target_install_namelink : Option String
  export_name : Option String
  export_targets : List TargetIdAndIndex
  runtime_dependency_set_name : Option String
  runtime_dependency_set_type : Option String
  file_set_name : Option String
  file_set_type : Option String
  file_set_directories : List String
  file_set_target : Option TargetIdAndIndex
  script_file : Option String
  backtrace : Option Nat
deriving DecidableEq, Inhabited

/-- Deserializer of `Installer` (lenient). -/
def decodeInstaller : Json → Except String Installer
  | .obj o => do
    let _ ← scanKeys false
      ["component", "destination", "paths", "type", "isExcludeFromAll",
       "isForAllComponents", "isOptional", "targetId", "targetIndex",
       "targetIsImportLibrary", "targetInstallNamelink", "exportName",
       "exportTargets", "runtimeDependencySetName", "runtimeDependencySetType",
       "fileSetName", "fileSetType", "fileSetDirectories", "fileSetTarget",
       "scriptFile", "backtrace"] o []
    let component ← reqField o "component" dStr
    let destination ← optField o "destination" dStr
    let paths ← defField o "paths" (dList decodeInstallPath) []
    let installer_type ← reqField o "type" dStr
    let is_exclude_from_all ← defField o "isExcludeFromAll" dBool false
    let is_for_all_components ← defField o "isForAllComponents" dBool false
    let is_optional ← defField o "isOptional" dBool false
    let target_id ← optField o "targetId" dStr
    let target_index ← optField o "targetIndex" dUsize
    let target_is_import_library ← defField o "targetIsImportLibrary" dBool false
    let target_install_namelink ← optField o "targetInstallNamelink" dStr
    let export_name ← optField o "exportName" dStr
    let export_targets ← defField o "exportTargets" (dList decodeTargetIdAndIndex) []
    let runtime_dependency_set_name ← optField o "runtimeDependencySetName" dStr
    let runtime_dependency_set_type ← optField o "runtimeDependencySetType" dStr
    let file_set_name ← optField o "fileSetName" dStr
    let file_set_type ← optField o "fileSetType" dStr
    let file_set_directories ← defField o "fileSetDirectories" (dList dStr) []
    let file_set_target ← optField o "fileSetTarget" decodeTargetIdAndIndex
    let script_file ← optField o "scriptFile" dPath
    let backtrace ← optField o "backtrace" dUsize
    .ok { component := component, destination := destination, paths := paths,
          installer_type := installer_type, is_exclude_from_all := is_exclude_from_all,
          is_for_all_components := is_for_all_components, is_optional := is_optional,
          target_id := target_id, target_index := target_index,
          target_is_import_library := target_is_import_library,
          target_install_namelink := target_install_namelink,
          export_name := export_name, export_targets := export_targets,
          runtime_dependency_set_name := runtime_dependency_set_name,
          runtime_dependency_set_type := runtime_dependency_set_type,
          file_set_name := file_set_name, file_set_type := file_set_type,
          file_set_directories := file_set_directories,
          file_set_target := file_set_target, script_file := script_file,
          backtrace := backtrace }
  | _ => .error "invalid type: expected object"

/-- `codemodel_v2::directory::Directory`: the satellite directory object. -/
structure Directory where
  paths : DirectoryPaths
  backtrace_graph : BacktraceGraph
  installers : List Installer
deriving DecidableEq, Inhabited

/-- Deserializer of `Directory` (lenient). -/
def decodeDirectory : Json → Except String Directory
  | .obj o => do
    let _ ← scanKeys false ["paths", "backtraceGraph", "installers"] o []
    let paths ← reqField o "paths" decodeDirectoryPaths
    let backtrace_graph ← reqField o "backtraceGraph" decodeBacktraceGraph
    let installers ← reqField o "installers" (dList decodeInstaller)
    .ok { paths := paths, backtrace_graph := backtrace_graph, installers := installers }
  | _ => .error "invalid type: expected object"

/-- `codemodel_v2::codemodel::CodemodelPaths`. -/
structure CodemodelPaths where
  build : String
  source : String
deriving DecidableEq, Inhabited

/-- Deserializer of `CodemodelPaths` (lenient). -/
def decodeCodemodelPaths : Json → Except String CodemodelPaths
  | .obj o => do
    let _ ← scanKeys false ["build", "source"] o []
    let build ← reqField o "build" dPath
    let source ← reqField o "source" dPath
    .ok { build := build, source := source }
  | _ => .error "invalid type: expected object"

/-- `codemodel_v2::codemodel::MinimumCmakeVersion` (field renamed from
`string`). -/
structure MinimumCmakeVersion where
  version : String
deriving DecidableEq, Inhabited

/-- Deserializer of `MinimumCmakeVersion` (lenient). -/
def decodeMinimumCmakeVersion : Json → Except String MinimumCmakeVersion
  | .obj o => do
    let _ ← scanKeys false ["string"] o []
    let version ← reqField o "string" dStr
    .ok { version := version }
  | _ => .error "invalid type: expected object"

/-- `codemodel_v2::codemodel::DirectoryReference`. -/
structure DirectoryReference where
  source : String
  build : String
  parent_index : Option Nat
  child_indexes : List Nat
  project_index : Nat
  target_indexes : List Nat
  minimum_cmake_version : Option MinimumCmakeVersion
  has_install_rule : Bool
  json_file : String
deriving DecidableEq, Inhabited

/-- Deserializer of `DirectoryReference` (lenient). -/
def decodeDirectoryReference : Json → Except String DirectoryReference
  | .obj o => do
    let _ ← scanKeys false
      ["source", "build", "parentIndex", "childIndexes", "projectIndex",
       "targetIndexes", "minimumCMakeVersion", "hasInstallRule", "jsonFile"] o []
    let source ← reqField o "source" dPath
    let build ← reqField o "build" dPath
    let parent_index ← optField o "parentIndex" dUsize
    let child_indexes ← defField o "childIndexes" (dList dUsize) []
    let project_index ← reqField o "projectIndex" dUsize
    let target_indexes ← defField o "targetIndexes" (dList dUsize) []
    let minimum_cmake_version ← optField o "minimumCMakeVersion" decodeMinimumCmakeVersion
    let has_install_rule ← defField o "hasInstallRule" dBool false
    let json_file ← reqField o "jsonFile" dPath
    .ok { source := source, build := build, parent_index := parent_index,
          child_indexes := child_indexes, project_index := project_index,
          target_indexes := target_indexes,
          minimum_cmake_version := minimum_cmake_version,
          has_install_rule := has_install_rule, json_file := json_file }
  | _ => .error "invalid type: expected object"

/-- `codemodel_v2::codemodel::Project`. -/
structure Project where
  name : String
  parent_index : Option Nat
  child_indexes : List Nat
  directory_indexes : List Nat
  target_indexes : List Nat
deriving DecidableEq, Inhabited

/-- Deserializer of `Project` (lenient). -/
def decodeProject : Json → Except String Project
  | .obj o => do
    let _ ← scanKeys false
      ["name", "parentIndex", "childIndexes", "directoryIndexes", "targetIndexes"] o []
    let name ← reqField o "name" dStr
    let parent_index ← optField o "parentIndex" dUsize
    let child_indexes ← defField o "childIndexes" (dList dUsize) []
    let directory_indexes ← reqField o "directoryIndexes" (dList dUsize)
    let target_indexes ← defField o "targetIndexes" (dList dUsize) []
    .ok { name := name, parent_index := parent_index, child_indexes := child_indexes,
          directory_indexes := directory_indexes, target_indexes := target_indexes }
  | _ => .error "invalid type: expected object"

/-- `codemodel_v2::codemodel::TargetReference`. -/
structure TargetReference where
  name : String
  id : String
  directory_index : Nat
  project_index : Nat
  json_file : String
deriving DecidableEq, Inhabited

/-- Deserializer of `TargetReference` (lenient). -/
def decodeTargetReference : Json → Except String TargetReference
  | .obj o => do
    let _ ← scanKeys false
      ["name", "id", "directoryIndex", "projectIndex", "jsonFile"] o []
    let name ← reqField o "name" dStr
    let id ← reqField o "id" dStr
    let directory_index ← reqField o "directoryIndex" dUsize
    let project_index ← reqField o "projectIndex" dUsize
    let json_file ← reqField o "jsonFile" dPath
    .ok { name := name, id := id, directory_index := directory_index,
          project_index := project_index, json_file := json_file }
  | _ => .error "invalid type: expected object"

/-- `codemodel_v2::codemodel::Configuration`.  The JSON keys
`directories` and `targets` populate the reference arrays
(`directory_refs`, `target_refs`); the resolved arrays `directories`
and `targets` are `#[serde(skip)]` and hold the satellite objects after
reference resolution. -/
structure Configuration where
  name : String
  projects : List Project
  directory_refs : List DirectoryReference
  target_refs : List TargetReference
  directories : List Directory
  targets : List Target
deriving DecidableEq, Inhabited

/-- Deserializer of `Configuration` (lenient); the `#[serde(skip)]`
fields are initialized to their defaults (empty vectors). -/
def decodeConfiguration : Json → Except String Configuration
  | .obj o => do
    let _ ← scanKeys false ["name", "projects", "directories", "targets"] o []
    let name ← reqField o "name" dStr
    let projects ← reqField o "projects" (dList decodeProject)
    let directory_refs ← reqField o "directories" (dList decodeDirectoryReference)
    let target_refs ← reqField o "targets" (dList decodeTargetReference)
    .ok { name := name, projects := projects, directory_refs := directory_refs,
          target_refs := target_refs, directories := [], targets := [] }
  | _ => .error "invalid type: expected object"

/-- `codemodel_v2::codemodel::CodeModel`: the root build-model object. -/
structure CodeModel where
  kind : ObjectKind
  version : MajorMinor
  paths : CodemodelPaths
  configurations : List Configuration
deriving DecidableEq, Inhabited

/-- Deserializer of `CodeModel` (lenient). -/
def decodeCodeModel : Json → Except String CodeModel
  | .obj o => do
    let _ ← scanKeys false ["kind", "version", "paths", "configurations"] o []
    let kind ← reqField o "kind" decodeObjectKind
    let version ← reqField o "version" decodeMajorMinor
    let paths ← reqField o "paths" decodeCodemodelPaths
    let configurations ← reqField o "configurations" (dList decodeConfiguration)
    .ok { kind := kind, version := version, paths := paths,
          configurations := configurations }
  | _ => .error "invalid type: expected object"

/-- The body of `CodeModel::resolve_references` for one configuration:
parse each referenced target file in order and push it onto `targets`,
then do the same for the directory references, failing on the first
error. -/
def resolveConfig (fs : FS) (reply_dir : String) (config : Configuration) :
    Except ReaderError Configuration :=
  match mapE (fun target_ref =>
      parse_reply decodeTarget fs (pathJoin reply_dir target_ref.json_file))
      config.target_refs with
  | .error e => .error e
  | .ok ts =>
    match mapE (fun directory_ref =>
        parse_reply decodeDirectory fs (pathJoin reply_dir directory_ref.json_file))
        config.directory_refs with
    | .error e => .error e
    | .ok ds =>
      .ok { config with targets := config.targets ++ ts,
                        directories := config.directories ++ ds }

/-- `CodeModel::resolve_references`: resolve the target and directory
references of every configuration against the reply directory. -/
def CodeModel.resolve_references (fs : FS) (reader : Reader) (cm : CodeModel) :
    Except ReaderError CodeModel :=
  match mapE (resolveConfig fs (replyDir reader.build_dir)) cm.configurations with
  | .error e => .error e
  | .ok configs => .ok { cm with configurations := configs }

/-- The `objects::Object` implementation of `CodeModel`
(`kind() = CodeModel`, `major() = 2`, with the codemodel's
reference-resolution step). -/
def codeModelV2 : ObjectImpl CodeModel where
  kind := .CodeModel
  major := 2
  decode := decodeCodeModel
  resolve_references := CodeModel.resolve_references

/-- `query::WriterError`. -/
inductive WriterError where
  | IOError (msg : String) : WriterError
  | Parse (msg : String) : WriterError
  | ClientNameNotSet : WriterError
deriving DecidableEq, Inhabited

/-- `query::OptionalVersion` (`minor` has `skip_serializing_if =
Option::is_none`). -/
structure OptionalVersion where
  major : Nat
  minor : Option Nat
deriving DecidableEq, Inhabited

/-- `query::Request`. -/
structure Request where
  kind : ObjectKind
  version : OptionalVersion
deriving DecidableEq, Inhabited

/-- `query::Query`. -/
structure Query where
  requests : List Request
  client : Option Json
deriving Inhabited

/-- `query::Writer`. -/
structure Writer where
  query : Query
  client_name : Option String
deriving Inhabited

/-- `Writer::default()`. -/
def Writer.default : Writer :=
  { query := { requests := [], client := none }, client_name := none }

/-- `Writer::request_object::<T>`. -/
def Writer.request_object (w : Writer) (T : ObjectImpl α) : Writer :=
  { w with query := { w.query with requests := w.query.requests ++
      [{ kind := T.kind, version := { major := T.major, minor := none } }] } }

/-- `Writer::add_request_exact::<T>`. -/
def Writer.add_request_exact (w : Writer) (T : ObjectImpl α) (minor : Nat) : Writer :=
  { w with query := { w.query with requests := w.query.requests ++
      [{ kind := T.kind, version := { major := T.major, minor := some minor } }] } }

/-- `Writer::set_client`. -/
def Writer.set_client (w : Writer) (client_name : String) (client_data : Json) : Writer :=
  { w with query := { w.query with client := some client_data },
           client_name := some client_name }

/-- serde serialization of `ObjectKind` (its rename string). -/
def encodeObjectKind (k : ObjectKind) : Json := .str k.as_str

/-- serde serialization of `OptionalVersion`: `minor` is omitted when
`None`. -/
def encodeOptionalVersion (v : OptionalVersion) : Json :=
  .obj ([("major", .num (Int.ofNat v.major))] ++
    (match v.minor with
     | some m => [("minor", .num (Int.ofNat m))]
     | none => []))

/-- serde serialization of `Request`. -/
def encodeRequest (r : Request) : Json :=
  .obj [("kind", encodeObjectKind r.kind), ("version", encodeOptionalVersion r.version)]

/-- serde serialization of `Query` (`client: Option<Value>` serializes
as `null` when `None`). -/
def encodeQuery (q : Query) : Json :=
  .obj [("requests", .arr (q.requests.map encodeRequest)),
        ("client", match q.client with | some v => v | none => .null)]

/-- Deserializer of `OptionalVersion` (lenient). -/
def decodeOptionalVersion : Json → Except String OptionalVersion
  | .obj o => do
    let _ ← scanKeys false ["major", "minor"] o []
    let major ← reqField o "major" dU32
    let minor ← optField o "minor" dU32
    .ok { major := major, minor := minor }
  | _ => .error "invalid type: expected object"

/-- Deserializer of `Request` (lenient). -/
def decodeRequest : Json → Except String Request
  | .obj o => do
    let _ ← scanKeys false ["kind", "version"] o []
    let kind ← reqField o "kind" decodeObjectKind
    let version ← reqField o "version" decodeOptionalVersion
    .ok { kind := kind, version := version }
  | _ => .error "invalid type: expected object"

/-- Deserializer of `Query` (lenient). -/
def decodeQuery : Json → Except String Query
  | .obj o => do
    let _ ← scanKeys false ["requests", "client"] o []
    let requests ← reqField o "requests" (dList decodeRequest)
    let client ← optField o "client" dValue
    .ok { requests := requests, client := client }
  | _ => .error "invalid type: expected object"

/-- `query::dir`: the query directory of a build directory. -/
def queryDir (build_dir : String) : String :=
  pathJoin (pathJoin (pathJoin (pathJoin build_dir ".cmake") "api") "v1") "query"

/-- `fs::write`: (over)write a file's content.  Directory enumeration
listings are not updated: the development only reads written files back
by path. -/
def fsWriteFile (fs : FS) (p : String) (d : FileData) : FS :=
  { fs with files := (p, d) :: fs.files }

/-- `fs::create_dir_all` on the target directory (ancestors are not
tracked; nothing in scope enumerates them). -/
def fsCreateDirAll (fs : FS) (p : String) : FS :=
  if (fs.dirs.find? (fun d => d.1 == p)).isSome then fs
  else { fs with dirs := (p, []) :: fs.dirs }

/-- `Writer::write_stateless`: one empty marker file per requested
object, named `<kindTag>-v<major>` under the query directory. -/
def write_stateless (w : Writer) (fs : FS) (build_dir : String) :
    Except WriterError FS :=
  let query_dir := queryDir build_dir
  let fs1 := fsCreateDirAll fs query_dir
  .ok (w.query.requests.foldl (fun acc obj =>
    fsWriteFile acc
      (pathJoin query_dir (obj.kind.as_str ++ "-v" ++ toString obj.version.major))
      (.text "")) fs1)

/-- `Writer::write_stateful`: `<client-name>/query.json` under the
query directory, holding the serialized query (`serde_json::to_string`
is total on this data). -/
def write_stateful (w : Writer) (fs : FS) (build_dir : String) :
    Except WriterError FS :=
  match w.client_name with
  | none => .error .ClientNameNotSet
  | some name =>
    let client_dir := pathJoin (queryDir build_dir) name
    let fs1 := fsCreateDirAll fs client_dir
    .ok (fsWriteFile fs1 (pathJoin client_dir "query.json") (.json (encodeQuery w.query)))

/-- A build-model object is fully resolved when, in every configuration,
the resolved arrays are exactly as long as the reference arrays. -/
def FullyResolved (cm : CodeModel) : Prop :=
  ∀ c ∈ cm.configurations,
    c.targets.length = c.target_refs.length ∧
    c.directories.length = c.directory_refs.length

/-- Well-formedness of a query as Rust data: the `u32` version fields
are in range (automatic in Rust, where they have type `u32`). -/
def QueryWF (q : Query) : Prop :=
  ∀ r ∈ q.requests, r.version.major < 4294967296 ∧
    ∀ m, r.version.minor = some m → m < 4294967296

/-- Configuration `c` is the result of resolving configuration `c0`
against reply directory `rd`: the reference arrays are unchanged, the
resolved arrays have matching lengths, and the resolved object at each
position is the one parsed from the file named by the reference at the
same position. -/
def ConfigResolvedFrom (fs : FS) (rd : String) (c0 c : Configuration) : Prop :=
  c.target_refs = c0.target_refs ∧
  c.directory_refs = c0.directory_refs ∧
  c.targets.length = c.target_refs.length ∧
  c.directories.length = c.directory_refs.length ∧
  (∀ j tref, c.target_refs.get? j = some tref →
    ∃ tgt, c.targets.get? j = some tgt ∧
      parse_reply decodeTarget fs (pathJoin rd tref.json_file) = .ok tgt) ∧
  (∀ j dref, c.directory_refs.get? j = some dref →
    ∃ d, c.directories.get? j = some d ∧
      parse_reply decodeDirectory fs (pathJoin rd dref.json_file) = .ok d)

/-! Concrete protocol instances used to exercise the definitions. -/

/-- A concrete `cmake` record. -/
def cmakeW : CMake :=
  { version := { major := 3, minor := 27, patch := 7, suffix := "",
                 string := "3.27.7", is_dirty := false },
    paths := { cmake := "/usr/bin/cmake", ctest := "/usr/bin/ctest",
               cpack := "/usr/bin/cpack", root := "/usr/share/cmake" },
    generator := { multi_config := false, name := "Ninja", platform := none } }

/-- The field list of the JSON document for `cmakeW`. -/
def cmakeJsonFieldsW : List (String × Json) :=
  [("version", .obj [("major", .num 3), ("minor", .num 27), ("patch", .num 7),
      ("suffix", .str ""), ("string", .str "3.27.7"), ("isDirty", .bool false)]),
   ("paths", .obj [("cmake", .str "/usr/bin/cmake"), ("ctest", .str "/usr/bin/ctest"),
      ("cpack", .str "/usr/bin/cpack"), ("root", .str "/usr/share/cmake")]),
   ("generator", .obj [("multiConfig", .bool false), ("name", .str "Ninja")])]

/-- Catalog entry of the codemodel object. -/
def cmRefW : ReplyFileReference :=
  { kind := .CodeModel, version := { major := 2, minor := 6 },
    json_file := "codemodel-v2.json" }

/-- The field list of the JSON document for `cmRefW`. -/
def cmRefJsonFieldsW : List (String × Json) :=
  [("kind", .str "codemodel"),
   ("version", .obj [("major", .num 2), ("minor", .num 6)]),
   ("jsonFile", .str "codemodel-v2.json")]

/-- The JSON text of a concrete reply index. -/
def idxJsonW : Json :=
  .obj [("cmake", .obj cmakeJsonFieldsW),
        ("objects", .arr [.obj cmRefJsonFieldsW]),
        ("reply", .obj [])]

/-- A concrete parsed reply index. -/
def idxW : Index := { cmake := cmakeW, objects := [cmRefW], reply := [] }

/-- A reader over build directory `bd` holding `idxW`. -/
def rW : Reader := { build_dir := "bd", index := idxW }

/-- A reader whose index catalog is empty. -/
def rEmptyW : Reader :=
  { build_dir := "bd", index := { cmake := cmakeW, objects := [], reply := [] } }

/-- The JSON text of a small satellite target object. -/
def tgtJsonW : Json :=
  .obj [("name", .str "app"), ("id", .str "app::@1"), ("type", .str "EXECUTABLE"),
        ("paths", .obj [("build", .str "."), ("source", .str ".")]),
        ("backtraceGraph", .obj [("nodes", .arr []), ("commands", .arr []),
                                 ("files", .arr [])])]

/-- The target parsed from `tgtJsonW`. -/
def tgtW : Target :=
  { name := "app", id := "app::@1", type_name := "EXECUTABLE", backtrace := none,
    folder := none, paths := { build := ".", source := "." }, name_on_disk := none,
    artifacts := [], is_generator_provided := false, install := none, launchers := [],
    link := none, archive := none, dependencies := [], file_sets := [], sources := [],
    source_groups := [], compile_groups := [],
    backtrace_graph := { nodes := [], commands := [], files := [] } }

/-- The JSON text of a small satellite directory object. -/
def dirJsonW : Json :=
  .obj [("paths", .obj [("build", .str "."), ("source", .str ".")]),
        ("backtraceGraph", .obj [("nodes", .arr []), ("commands", .arr []),
                                 ("files", .arr [])]),
        ("installers", .arr [])]

/-- The directory parsed from `dirJsonW`. -/
def dirW : Directory :=
  { paths := { build := ".", source := "." },
    backtrace_graph := { nodes := [], commands := [], files := [] },
    installers := [] }

/-- The JSON text of a one-configuration codemodel with one target
reference and one directory reference. -/
def cmJsonW : Json :=
  .obj [("kind", .str "codemodel"),
        ("version", .obj [("major", .num 2), ("minor", .num 6)]),
        ("paths", .obj [("build", .str "."), ("source", .str ".")]),
        ("configurations", .arr [.obj
          [("name", .str "Debug"),
           ("projects", .arr [.obj [("name", .str "P"),
                                    ("directoryIndexes", .arr [.num 0])]]),
           ("directories", .arr [.obj
             [("source", .str "."), ("build", .str "."), ("projectIndex", .num 0),
              ("jsonFile", .str "directory-0.json")]]),
           ("targets", .arr [.obj
             [("name", .str "app"), ("id", .str "app::@1"),
              ("directoryIndex", .num 0), ("projectIndex", .num 0),
              ("jsonFile", .str "target-0.json")]])]])]

/-- The codemodel parsed from `cmJsonW` (references not yet resolved). -/
def cmW : CodeModel :=
  { kind := .CodeModel, version := { major := 2, minor := 6 },
    paths := { build := ".", source := "." },
    configurations := [
      { name := "Debug",
        projects := [{ name := "P", parent_index := none, child_indexes := [],
                       directory_indexes := [0], target_indexes := [] }],
        directory_refs := [{ source := ".", build := ".", parent_index := none,
                             child_indexes := [], project_index := 0,
                             target_indexes := [], minimum_cmake_version := none,
                             has_install_rule := false,
                             json_file := "directory-0.json" }],
        target_refs := [{ name := "app", id := "app::@1", directory_index := 0,
                          project_index := 0, json_file := "target-0.json" }],
        directories := [], targets := [] }] }

/-- `cmW` after reference resolution. -/
def cmResolvedW : CodeModel :=
  { cmW with configurations :=
      [{ (cmW.configurations.get ⟨0, by simp [cmW]⟩) with
         directories := [dirW], targets := [tgtW] }] }

/-- A filesystem holding a complete generated file-api for `bd`. -/
def fsW : FS :=
  { dirs := [("bd/.cmake/api/v1/reply",
      [some { name := "index-1.json", isFile := true }])],
    files := [("bd/.cmake/api/v1/reply/index-1.json", .json idxJsonW),
              ("bd/.cmake/api/v1/reply/codemodel-v2.json", .json cmJsonW),
              ("bd/.cmake/api/v1/reply/target-0.json", .json tgtJsonW),
              ("bd/.cmake/api/v1/reply/directory-0.json", .json dirJsonW)],
    ioErrorFiles := [], readDirFails := [] }

/-- An empty build directory: no `.cmake` directory at all. -/
def fsEmptyBuildW : FS :=
  { dirs := [("bd", [])], files := [], ioErrorFiles := [], readDirFails := [] }

/-- A reply directory that exists but holds only a malformed index. -/
def fsBrokenW : FS :=
  { dirs := [("bd", []), ("bd/.cmake/api/v1/reply",
      [some { name := "index-broken.json", isFile := true }])],
    files := [("bd/.cmake/api/v1/reply/index-broken.json", .text "broken non-json text")],
    ioErrorFiles := [], readDirFails := [] }

/-- A reply directory that exists but contains no index file. -/
def fsNoIndexW : FS :=
  { dirs := [("bd/.cmake/api/v1/reply", [])], files := [],
    ioErrorFiles := [], readDirFails := [] }

/-- A reply directory with an index file present, but whose enumeration
(`fs::read_dir`) fails with an I/O error. -/
def fsReadDirFailW : FS :=
  { dirs := [("bd/.cmake/api/v1/reply",
      [some { name := "index-1.json", isFile := true }])],
    files := [("bd/.cmake/api/v1/reply/index-1.json", .json idxJsonW)],
    ioErrorFiles := [], readDirFails := ["bd/.cmake/api/v1/reply"] }

/-- A filesystem with one unreadable file. -/
def fsPermW : FS :=
  { dirs := [], files := [], ioErrorFiles := ["bd/.cmake/api/v1/reply/index-1.json"],
    readDirFails := [] }

/-- An initially empty filesystem. -/
def fs0W : FS := { dirs := [], files := [], ioErrorFiles := [], readDirFails := [] }

/-- A concrete request for the codemodel object. -/
def reqW : Request := { kind := .CodeModel, version := { major := 2, minor := none } }

/-- A stateful query writer whose client payload is JSON `null`. -/
def wNullW : Writer :=
  { query := { requests := [], client := some .null }, client_name := some "client1" }

/-- A stateful query writer with a non-null client payload. -/
def wGoodW : Writer :=
  { query := { requests := [reqW], client := some (.str "data") },
    client_name := some "client1" }

/-- A codemodel document with one extra unrecognized top-level field. -/
def cmJsonExtraW : Json :=
  .obj [("kind", .str "codemodel"),
        ("version", .obj [("major", .num 2), ("minor", .num 6)]),
        ("paths", .obj [("build", .str "."), ("source", .str ".")]),
        ("configurations", .arr []),
        ("extraField", .num 1)]

/-- The codemodel parsed from `cmJsonExtraW`. -/
def cmSmallW : CodeModel :=
  { kind := .CodeModel, version := { major := 2, minor := 6 },
    paths := { build := ".", source := "." }, configurations := [] }

section Helpers

lemma bindE {ε α β : Type} (x : Except ε α) (f : α → Except ε β) :
    (x >>= f) = Except.bind x f := rfl

lemma except_bind_ok {ε α β : Type} (a : α) (f : α → Except ε β) :
    Except.bind (Except.ok a) f = f a := rfl

lemma except_bind_error {ε α β : Type} (e : ε) (f : α → Except ε β) :
    Except.bind (Except.error e) f = Except.error e := rfl

lemma mapE_ok_length {f : α → Except ε β} {xs : List α} {ys : List β}
    (h : mapE f xs = .ok ys) : ys.length = xs.length := by
  induction xs generalizing ys with
  | nil =>
    simp only [mapE] at h
    cases h
    rfl
  | cons x t ih =>
    cases hfx : f x with
    | error e => simp [mapE, hfx] at h
    | ok b =>
      cases hrest : mapE f t with
      | error e => simp [mapE, hfx, hrest] at h
      | ok bs =>
        simp only [mapE, hfx, hrest] at h
        cases h
        simp [ih hrest]

lemma mapE_ok_get {f : α → Except ε β} {xs : List α} {ys : List β}
    (h : mapE f xs = .ok ys) :
    ∀ i (hi : i < xs.length) (hi' : i < ys.length),
      f (xs.get ⟨i, hi⟩) = .ok (ys.get ⟨i, hi'⟩) := by
  induction xs generalizing ys with
  | nil => intro i hi _; simp at hi
  | cons x t ih =>
    cases hfx : f x with
    | error e => simp [mapE, hfx] at h
    | ok b =>
      cases hrest : mapE f t with
      | error e => simp [mapE, hfx, hrest] at h
      | ok bs =>
        simp only [mapE, hfx, hrest] at h
        cases h
        intro i hi hi'
        cases i with
        | zero => simpa using hfx
        | succ n =>
          have hn : n < t.length := by simpa using hi
          have hn' : n < bs.length := by simpa using hi'
          simpa using ih hrest n hn hn'

lemma find?_eq_some_first {p : α → Bool} {l : List α} {a : α}
    (h : l.find? p = some a) :
    ∃ i, ∃ hi : i < l.length, l.get ⟨i, hi⟩ = a ∧ p a = true ∧
      ∀ j (hj : j < l.length), j < i → p (l.get ⟨j, hj⟩) = false := by
  induction l with
  | nil => simp at h
  | cons x t ih =>
    rw [List.find?] at h
    cases hpx : p x with
    | true =>
      rw [hpx] at h
      cases h
      refine ⟨0, by simp, by simp, hpx, ?_⟩
      intro j hj hj0
      omega
    | false =>
      rw [hpx] at h
      obtain ⟨i, hi, hget, hpa, hprev⟩ := ih h
      refine ⟨i + 1, by simpa using Nat.succ_lt_succ hi, by simpa using hget, hpa, ?_⟩
      intro j hj hji
      cases j with
      | zero => simpa using hpx
      | succ m =>
        have hm : m < t.length := by simpa using hj
        simpa using hprev m hm (by omega)

lemma findSome?_eq_some_iff {f : α → Option β} {l : List α} {b : β} :
    l.findSome? f = some b ↔
      ∃ i, ∃ hi : i < l.length, f (l.get ⟨i, hi⟩) = some b ∧
        ∀ j (hj : j < l.length), j < i → f (l.get ⟨j, hj⟩) = none := by
  induction l with
  | nil => simp
  | cons x t ih =>
    rw [List.findSome?_cons]
    cases hfx : f x with
    | some c =>
      constructor
      · intro h
        have h' : some c = some b := h
        cases h'
        refine ⟨0, by simp, by simpa using hfx, ?_⟩
        intro j hj hj0
        omega
      · rintro ⟨i, hi, hget, hprev⟩
        cases i with
        | zero =>
          have hget' : f x = some b := hget
          rw [hfx] at hget'
          exact hget'
        | succ m =>
          have h0 : f x = none := by simpa using hprev 0 (by simp) (by omega)
          rw [hfx] at h0
          cases h0
    | none =>
      have hred : t.findSome? f = some b ↔
          ∃ i, ∃ hi : i < t.length, f (t.get ⟨i, hi⟩) = some b ∧
            ∀ j (hj : j < t.length), j < i → f (t.get ⟨j, hj⟩) = none := ih
      refine Iff.trans hred ?_
      constructor
      · rintro ⟨i, hi, hget, hprev⟩
        refine ⟨i + 1, by simpa using Nat.succ_lt_succ hi, by simpa using hget, ?_⟩
        intro j hj hji
        cases j with
        | zero => simpa using hfx
        | succ m =>
          have hm : m < t.length := by simpa using hj
          simpa using hprev m hm (by omega)
      · rintro ⟨i, hi, hget, hprev⟩
        cases i with
        | zero =>
          have hget' : f x = some b := hget
          rw [hfx] at hget'
          cases hget'
        | succ m =>
          have hm : m < t.length := by simpa using hi
          refine ⟨m, hm, by simpa using hget, ?_⟩
          intro j hj hji
          have hj1 : j + 1 < (x :: t).length := by simpa using Nat.succ_lt_succ hj
          simpa using hprev (j + 1) hj1 (by omega)

lemma findSome?_eq_none_iff {f : α → Option β} {l : List α} :
    l.findSome? f = none ↔ ∀ e ∈ l, f e = none := by
  induction l with
  | nil => simp
  | cons x t ih =>
    rw [List.findSome?_cons]
    cases hfx : f x with
    | some c =>
      constructor
      · intro h
        exact absurd h (by simp)
      · intro h
        have := h x (by simp)
        rw [hfx] at this
        cases this
    | none =>
      have hred : (t.findSome? f = none) = (∀ e ∈ t, f e = none) := propext ih
      constructor
      · intro h e he
        rcases List.mem_cons.mp he with rfl | het
        · exact hfx
        · exact (hred ▸ (h : t.findSome? f = none)) e het
      · intro h
        show t.findSome? f = none
        rw [hred]
        intro e he
        exact h e (List.mem_cons_of_mem x he)

lemma mapE_ok_get? {f : α → Except ε β} {xs : List α} {ys : List β}
    (h : mapE f xs = .ok ys) :
    ∀ i x, xs.get? i = some x → ∃ y, ys.get? i = some y ∧ f x = .ok y := by
  induction xs generalizing ys with
  | nil => intro i x hx; simp at hx
  | cons a t ih =>
    cases hfa : f a with
    | error e => simp [mapE, hfa] at h
    | ok b =>
      cases hrest : mapE f t with
      | error e => simp [mapE, hfa, hrest] at h
      | ok bs =>
        simp only [mapE, hfa, hrest] at h
        cases h
        intro i x hx
        cases i with
        | zero =>
          simp only [List.get?] at hx
          cases hx
          exact ⟨b, rfl, hfa⟩
        | succ n =>
          simp only [List.get?] at hx ⊢
          exact ih hrest n x hx

lemma resolveConfig_ok {fs : FS} {rd : String} {c c' : Configuration}
    (h : resolveConfig fs rd c = .ok c') :
    ∃ ts ds,
      mapE (fun r => parse_reply decodeTarget fs (pathJoin rd r.json_file))
          c.target_refs = .ok ts ∧
      mapE (fun r => parse_reply decodeDirectory fs (pathJoin rd r.json_file))
          c.directory_refs = .ok ds ∧
      c' = { c with targets := c.targets ++ ts,
                    directories := c.directories ++ ds } := by
  unfold resolveConfig at h
  split at h
  · cases h
  · rename_i ts hts
    split at h
    · cases h
    · rename_i ds hds
      cases h
      exact ⟨ts, ds, hts, hds, rfl⟩

lemma resolveConfig_resolved {fs : FS} {rd : String} {c c' : Configuration}
    (hc : c.targets = [] ∧ c.directories = [])
    (h : resolveConfig fs rd c = .ok c') : ConfigResolvedFrom fs rd c c' := by
  obtain ⟨ts, ds, hts, hds, rfl⟩ := resolveConfig_ok h
  obtain ⟨h1, h2⟩ := hc
  rw [ConfigResolvedFrom]
  refine ⟨rfl, rfl, ?_, ?_, ?_, ?_⟩
  · show (c.targets ++ ts).length = c.target_refs.length
    rw [h1, List.nil_append]
    exact mapE_ok_length hts
  · show (c.directories ++ ds).length = c.directory_refs.length
    rw [h2, List.nil_append]
    exact mapE_ok_length hds
  · intro j tref htref
    obtain ⟨tgt, hy, hf⟩ := mapE_ok_get? hts j tref htref
    refine ⟨tgt, ?_, hf⟩
    show (c.targets ++ ts).get? j = some tgt
    rw [h1, List.nil_append]
    exact hy
  · intro j dref hdref
    obtain ⟨d, hy, hf⟩ := mapE_ok_get? hds j dref hdref
    refine ⟨d, ?_, hf⟩
    show (c.directories ++ ds).get? j = some d
    rw [h2, List.nil_append]
    exact hy

lemma resolve_references_ok {fs : FS} {reader : Reader} {cm cm' : CodeModel}
    (h : CodeModel.resolve_references fs reader cm = .ok cm') :
    ∃ configs,
      mapE (resolveConfig fs (replyDir reader.build_dir)) cm.configurations = .ok configs ∧
      cm' = { cm with configurations := configs } := by
  unfold CodeModel.resolve_references at h
  split at h
  · cases h
  · rename_i configs hconfigs
    cases h
    exact ⟨configs, hconfigs, rfl⟩

/-- Core positional-correspondence property of the reference resolver:
resolving a freshly-parsed build model (whose resolved arrays are still
empty) succeeds only with one resolved configuration per input
configuration, each positionally resolved from its references. -/
lemma resolve_positional_core {fs : FS} {reader : Reader} {cm cm' : CodeModel}
    (hinit : ∀ c ∈ cm.configurations, c.targets = [] ∧ c.directories = [])
    (h : CodeModel.resolve_references fs reader cm = .ok cm') :
    cm'.configurations.length = cm.configurations.length ∧
    ∀ i c0, cm.configurations.get? i = some c0 →
      ∃ c, cm'.configurations.get? i = some c ∧
        ConfigResolvedFrom fs (replyDir reader.build_dir) c0 c := by
  obtain ⟨configs, hconfigs, rfl⟩ := resolve_references_ok h
  constructor
  · show configs.length = cm.configurations.length
    exact mapE_ok_length hconfigs
  · intro i c0 hc0
    obtain ⟨c, hy, hf⟩ := mapE_ok_get? hconfigs i c0 hc0
    refine ⟨c, hy, ?_⟩
    have hmem : c0 ∈ cm.configurations := List.get?_mem hc0
    exact resolveConfig_resolved (hinit c0 hmem) hf

/-- A successfully decoded configuration has empty resolved arrays: the
`#[serde(skip)]` fields are initialized to their defaults. -/
lemma decodeConfiguration_init {j : Json} {c : Configuration}
    (h : decodeConfiguration j = .ok c) : c.targets = [] ∧ c.directories = [] := by
  cases j with
  | obj o =>
    simp only [decodeConfiguration, bind, Except.bind] at h
    split at h
    · cases h
    split at h
    · cases h
    split at h
    · cases h
    split at h
    · cases h
    split at h
    · cases h
    cases h
    exact ⟨rfl, rfl⟩
  | null => cases h
  | bool b => cases h
  | num n => cases h
  | str s => cases h
  | arr xs => cases h

lemma mapE_ok_mem {f : α → Except ε β} {xs : List α} {ys : List β}
    (h : mapE f xs = .ok ys) :
    ∀ y ∈ ys, ∃ x, x ∈ xs ∧ f x = .ok y := by
  induction xs generalizing ys with
  | nil =>
    simp only [mapE] at h
    cases h
    intro y hy
    simp at hy
  | cons a t ih =>
    cases hfa : f a with
    | error e => simp [mapE, hfa] at h
    | ok b =>
      cases hrest : mapE f t with
      | error e => simp [mapE, hfa, hrest] at h
      | ok bs =>
        simp only [mapE, hfa, hrest] at h
        cases h
        intro y hy
        rcases List.mem_cons.mp hy with rfl | hyt
        · exact ⟨a, by simp, hfa⟩
        · obtain ⟨x, hx, hfx⟩ := ih hrest y hyt
          exact ⟨x, List.mem_cons_of_mem a hx, hfx⟩

/-- Every configuration of a successfully decoded build model has empty
resolved arrays. -/
lemma decodeCodeModel_init {j : Json} {cm : CodeModel}
    (h : decodeCodeModel j = .ok cm) :
    ∀ c ∈ cm.configurations, c.targets = [] ∧ c.directories = [] := by
  cases j with
  | obj o =>
    simp only [decodeCodeModel, bind, Except.bind] at h
    split at h
    · cases h
    split at h
    · cases h
    split at h
    · cases h
    split at h
    · cases h
    split at h
    · cases h
    rename_i cfgs hcfgs
    cases h
    intro c hc
    have hex : ∃ jc, decodeConfiguration jc = .ok c := by
      revert hcfgs
      cases hfield : getField? o "configurations" with
      | none => simp [reqField, hfield]
      | some jc =>
        simp only [reqField, hfield]
        cases jc with
        | arr xs =>
          simp only [dList]
          intro hcfgs
          obtain ⟨x, _, hfx⟩ := mapE_ok_mem hcfgs c hc
          exact ⟨x, hfx⟩
        | null => simp [dList]
        | bool b => simp [dList]
        | num n => simp [dList]
        | str s => simp [dList]
        | obj oo => simp [dList]
    obtain ⟨jc, hjc⟩ := hex
    exact decodeConfiguration_init hjc
  | null => cases h
  | bool b => cases h
  | num n => cases h
  | str s => cases h
  | arr xs => cases h

lemma scanKeys_append_unknown {known : List String} {k : String} (v : Json)
    (hk : known.contains k = false) (o : List (String × Json)) :
    ∀ seen, scanKeys true known o seen = .ok () →
      scanKeys true known (o ++ [(k, v)]) seen = .error ("unknown field " ++ k) := by
  have hk' : k ∉ known := by simpa using hk
  induction o with
  | nil =>
    intro seen _
    simp [scanKeys, hk']
  | cons p rest ih =>
    intro seen h
    obtain ⟨k', v'⟩ := p
    rw [List.cons_append]
    by_cases hck : k' ∈ known
    · by_cases hsk : k' ∈ seen
      · simp [scanKeys, hck, hsk] at h
      · simp only [scanKeys] at h ⊢
        simp [hck, hsk] at h ⊢
        exact ih _ h
    · simp [scanKeys, hck] at h

lemma scanKeys_append_skip_eq {known : List String} {k : String} {v : Json}
    (hk : known.contains k = false) (o : List (String × Json)) :
    ∀ seen, scanKeys false known (o ++ [(k, v)]) seen = scanKeys false known o seen := by
  have hk' : k ∉ known := by simpa using hk
  induction o with
  | nil =>
    intro seen
    simp [scanKeys, hk']
  | cons p rest ih =>
    intro seen
    obtain ⟨k', v'⟩ := p
    rw [List.cons_append]
    by_cases hck : k' ∈ known
    · by_cases hsk : k' ∈ seen
      · simp [scanKeys, hck, hsk]
      · simp only [scanKeys]
        simp [hck, hsk]
        exact ih _
    · simp only [scanKeys]
      simp [hck]
      exact ih _

lemma getField?_append_ne {o : List (String × Json)} {k k' : String} {v : Json}
    (h : k' ≠ k) : getField? (o ++ [(k, v)]) k' = getField? o k' := by
  induction o with
  | nil =>
    have hkk : (k == k') = false := by
      simp only [beq_eq_false_iff_ne, ne_eq]
      exact fun hh => h hh.symm
    simp [getField?, List.find?, hkk]
  | cons p rest ih =>
    rw [List.cons_append]
    simp only [getField?, List.find?] at ih ⊢
    cases hpk : (p.1 == k') with
    | true => simp [hpk]
    | false => simpa [hpk] using ih

lemma reqField_append_ne {o : List (String × Json)} {k k' : String} {v : Json}
    {d : Json → Except String α} (h : k' ≠ k) :
    reqField (o ++ [(k, v)]) k' d = reqField o k' d := by
  simp [reqField, getField?_append_ne h]

lemma decodeCMake_scan_ok {o : List (String × Json)} {c : CMake}
    (h : decodeCMake (.obj o) = .ok c) :
    scanKeys true ["version", "paths", "generator"] o [] = .ok () := by
  simp only [decodeCMake, bind, Except.bind] at h
  cases hs : scanKeys true ["version", "paths", "generator"] o [] with
  | error e => simp [hs] at h
  | ok u => rfl

lemma decodeCMake_append_unknown {o : List (String × Json)} {c : CMake}
    {k : String} {v : Json} (h : decodeCMake (.obj o) = .ok c)
    (hk : (["version", "paths", "generator"] : List String).contains k = false) :
    decodeCMake (.obj (o ++ [(k, v)])) = .error ("unknown field " ++ k) := by
  have herr := scanKeys_append_unknown v hk o [] (decodeCMake_scan_ok h)
  simp [decodeCMake, bind, Except.bind, herr]

lemma decodeReplyFileReference_scan_ok {o : List (String × Json)}
    {r : ReplyFileReference} (h : decodeReplyFileReference (.obj o) = .ok r) :
    scanKeys true ["kind", "version", "jsonFile"] o [] = .ok () := by
  simp only [decodeReplyFileReference, bind, Except.bind] at h
  cases hs : scanKeys true ["kind", "version", "jsonFile"] o [] with
  | error e => simp [hs] at h
  | ok u => rfl

lemma decodeReplyFileReference_append_unknown {o : List (String × Json)}
    {r : ReplyFileReference} {k : String} {v : Json}
    (h : decodeReplyFileReference (.obj o) = .ok r)
    (hk : (["kind", "version", "jsonFile"] : List String).contains k = false) :
    decodeReplyFileReference (.obj (o ++ [(k, v)])) = .error ("unknown field " ++ k) := by
  have herr := scanKeys_append_unknown v hk o [] (decodeReplyFileReference_scan_ok h)
  simp [decodeReplyFileReference, bind, Except.bind, herr]

lemma decodeCodeModel_append {o : List (String × Json)} {k : String} {v : Json}
    (hk : (["kind", "version", "paths", "configurations"] : List String).contains k = false) :
    decodeCodeModel (.obj (o ++ [(k, v)])) = decodeCodeModel (.obj o) := by
  have hne : ∀ k', k' ∈ (["kind", "version", "paths", "configurations"] : List String) →
      k' ≠ k := by
    intro k' hm heq
    subst heq
    simp [hm] at hk
  simp only [decodeCodeModel]
  rw [scanKeys_append_skip_eq hk o []]
  simp only [reqField_append_ne (hne "kind" (by simp)),
             reqField_append_ne (hne "version" (by simp)),
             reqField_append_ne (hne "paths" (by simp)),
             reqField_append_ne (hne "configurations" (by simp))]

lemma decodeObjectKind_as_str (k : ObjectKind) :
    decodeObjectKind (.str k.as_str) = .ok k := by
  cases k <;> rfl

lemma dU32_ofNat {n : Nat} (h : n < 4294967296) :
    dU32 (.num (Int.ofNat n)) = .ok n := by
  have h0 : (0 : Int) ≤ Int.ofNat n := Int.ofNat_nonneg n
  have h1 : Int.ofNat n < 4294967296 := by
    rw [Int.ofNat_eq_natCast]
    exact_mod_cast h
  rw [dU32, if_pos (And.intro h0 h1), Int.ofNat_eq_natCast, Int.toNat_ofNat]

lemma decodeOptionalVersion_encode {ver : OptionalVersion}
    (hmaj : ver.major < 4294967296)
    (hmin : ∀ m, ver.minor = some m → m < 4294967296) :
    decodeOptionalVersion (encodeOptionalVersion ver) = .ok ver := by
  obtain ⟨major, minor⟩ := ver
  have hmaj' : major < 4294967296 := hmaj
  cases minor with
  | none =>
    have h1 : scanKeys false ["major", "minor"]
        [("major", Json.num (Int.ofNat major))] [] = .ok () := rfl
    have hg : getField? [("major", Json.num (Int.ofNat major))] "major"
        = some (Json.num (Int.ofNat major)) := rfl
    have h2 : reqField [("major", Json.num (Int.ofNat major))] "major" dU32
        = .ok major := by
      simp only [reqField, hg]
      exact dU32_ofNat hmaj'
    have h3 : optField [("major", Json.num (Int.ofNat major))] "minor" dU32
        = .ok none := rfl
    simp only [encodeOptionalVersion, decodeOptionalVersion, List.append_nil,
               bindE, h1, h2, h3, except_bind_ok]
  | some m =>
    have hm : m < 4294967296 := hmin m rfl
    have h1 : scanKeys false ["major", "minor"]
        [("major", Json.num (Int.ofNat major)), ("minor", Json.num (Int.ofNat m))] []
        = .ok () := rfl
    have hgmaj : getField?
        [("major", Json.num (Int.ofNat major)), ("minor", Json.num (Int.ofNat m))]
        "major" = some (Json.num (Int.ofNat major)) := rfl
    have h2 : reqField
        [("major", Json.num (Int.ofNat major)), ("minor", Json.num (Int.ofNat m))]
        "major" dU32 = .ok major := by
      simp only [reqField, hgmaj]
      exact dU32_ofNat hmaj'
    have hgmin : getField?
        [("major", Json.num (Int.ofNat major)), ("minor", Json.num (Int.ofNat m))]
        "minor" = some (Json.num (Int.ofNat m)) := rfl
    have h3 : optField
        [("major", Json.num (Int.ofNat major)), ("minor", Json.num (Int.ofNat m))]
        "minor" dU32 = .ok (some m) := by
      simp only [optField, hgmin]
      rw [dU32_ofNat hm]
      rfl
    simp only [encodeOptionalVersion, decodeOptionalVersion, List.cons_append,
               List.nil_append, bindE, h1, h2, h3, except_bind_ok]

lemma decodeRequest_encode {r : Request}
    (hmaj : r.version.major < 4294967296)
    (hmin : ∀ m, r.version.minor = some m → m < 4294967296) :
    decodeRequest (encodeRequest r) = .ok r := by
  obtain ⟨kind, ver⟩ := r
  have hmaj' : ver.major < 4294967296 := hmaj
  have hmin' : ∀ m, ver.minor = some m → m < 4294967296 := hmin
  have h1 : scanKeys false ["kind", "version"]
      [("kind", Json.str kind.as_str), ("version", encodeOptionalVersion ver)] []
      = .ok () := rfl
  have hgk : getField?
      [("kind", Json.str kind.as_str), ("version", encodeOptionalVersion ver)]
      "kind" = some (Json.str kind.as_str) := rfl
  have h2 : reqField
      [("kind", Json.str kind.as_str), ("version", encodeOptionalVersion ver)]
      "kind" decodeObjectKind = .ok kind := by
    simp only [reqField, hgk]
    exact decodeObjectKind_as_str kind
  have hgv : getField?
      [("kind", Json.str kind.as_str), ("version", encodeOptionalVersion ver)]
      "version" = some (encodeOptionalVersion ver) := rfl
  have h3 : reqField
      [("kind", Json.str kind.as_str), ("version", encodeOptionalVersion ver)]
      "version" decodeOptionalVersion = .ok ver := by
    simp only [reqField, hgv]
    exact decodeOptionalVersion_encode hmaj' hmin'
  simp only [encodeRequest, encodeObjectKind, decodeRequest, bindE,
             h1, h2, h3, except_bind_ok]

lemma mapE_decode_encode_requests {rs : List Request}
    (h : ∀ r ∈ rs, r.version.major < 4294967296 ∧
      ∀ m, r.version.minor = some m → m < 4294967296) :
    mapE decodeRequest (rs.map encodeRequest) = .ok rs := by
  induction rs with
  | nil => rfl
  | cons r t ih =>
    have hr := h r (by simp)
    have ht : mapE decodeRequest (t.map encodeRequest) = .ok t :=
      ih (fun x hx => h x (List.mem_cons_of_mem r hx))
    simp only [List.map_cons, mapE, decodeRequest_encode hr.1 hr.2, ht]

lemma decodeQuery_encode {q : Query} (hwf : QueryWF q)
    (hc : q.client ≠ some .null) :
    decodeQuery (encodeQuery q) = .ok q := by
  obtain ⟨rs, cl⟩ := q
  have hreq : mapE decodeRequest (rs.map encodeRequest) = .ok rs :=
    mapE_decode_encode_requests (fun r hr => hwf r hr)
  have hbody : ∀ jc, optField
        [("requests", Json.arr (rs.map encodeRequest)), ("client", jc)]
        "client" dValue = .ok cl →
      decodeQuery (.obj
        [("requests", Json.arr (rs.map encodeRequest)), ("client", jc)])
        = .ok { requests := rs, client := cl } := by
    intro jc h3
    have h1 : scanKeys false ["requests", "client"]
        [("requests", Json.arr (rs.map encodeRequest)), ("client", jc)] []
        = .ok () := rfl
    have hgr : getField?
        [("requests", Json.arr (rs.map encodeRequest)), ("client", jc)]
        "requests" = some (Json.arr (rs.map encodeRequest)) := rfl
    have h2 : reqField
        [("requests", Json.arr (rs.map encodeRequest)), ("client", jc)]
        "requests" (dList decodeRequest) = .ok rs := by
      simp only [reqField, hgr, dList]
      exact hreq
    simp only [decodeQuery, bindE, h1, h2, h3, except_bind_ok]
  cases cl with
  | none => exact hbody Json.null rfl
  | some v =>
    cases v with
    | null => exact absurd rfl hc
    | bool b => exact hbody (Json.bool b) rfl
    | num n => exact hbody (Json.num n) rfl
    | str s => exact hbody (Json.str s) rfl
    | arr xs => exact hbody (Json.arr xs) rfl
    | obj o => exact hbody (Json.obj o) rfl

lemma fsReadToString_write (fs : FS) (p q : String) (d : FileData) :
    fsReadToString (fsWriteFile fs p d) q
      = if q = p then .ok d else fsReadToString fs q := by
  by_cases hqp : q = p
  · subst hqp
    simp [fsReadToString, fsWriteFile, List.find?]
  · have hpq : (p == q) = false := by
      simp only [beq_eq_false_iff_ne, ne_eq]
      exact fun hh => hqp hh.symm
    simp [fsReadToString, fsWriteFile, List.find?, hpq, hqp]

lemma foldl_write_preserve {β : Type} (g : β → String) (l : List β) (fs0 : FS)
    (q : String) (h : fsReadToString fs0 q = .ok (.text "")) :
    fsReadToString
      (l.foldl (fun acc r => fsWriteFile acc (g r) (.text "")) fs0) q
      = .ok (.text "") := by
  induction l generalizing fs0 with
  | nil => exact h
  | cons r t ih =>
    rw [List.foldl_cons]
    refine ih (fsWriteFile fs0 (g r) (.text "")) ?_
    rw [fsReadToString_write]
    by_cases hq : q = g r
    · simp [hq]
    · simp [hq, h]

lemma foldl_write_mem {β : Type} (g : β → String) (l : List β) (fs0 : FS) :
    ∀ req ∈ l,
      fsReadToString
        (l.foldl (fun acc r => fsWriteFile acc (g r) (.text "")) fs0) (g req)
        = .ok (.text "") := by
  induction l generalizing fs0 with
  | nil => intro req h; simp at h
  | cons r t ih =>
    intro req hreq
    rw [List.foldl_cons]
    rcases List.mem_cons.mp hreq with rfl | hmem
    · refine foldl_write_preserve g t (fsWriteFile fs0 (g req) (.text "")) (g req) ?_
      rw [fsReadToString_write]
      simp
    · exact ih (fsWriteFile fs0 (g r) (.text "")) req hmem

end Helpers

section Claims

/-- C1: for every build-model object whose reference resolution succeeds
(its configurations freshly parsed, with empty resolved arrays), each
configuration with M target-references and P directory-references ends
up with exactly M resolved targets and P resolved directories, and for
every position j the resolved object at position j is the one parsed
from the file named by the reference at position j, resolved against
the reply directory. -/
theorem codemodel_resolution_positional (fs : FS) (reader : Reader)
    (cm cm' : CodeModel)
    (hinit : ∀ c ∈ cm.configurations, c.targets = [] ∧ c.directories = [])
    (h : CodeModel.resolve_references fs reader cm = .ok cm') :
    cm'.configurations.length = cm.configurations.length ∧
    ∀ i c0, cm.configurations.get? i = some c0 →
      ∃ c, cm'.configurations.get? i = some c ∧
        ConfigResolvedFrom fs (replyDir reader.build_dir) c0 c :=
  resolve_positional_core hinit h

/-- Witness for C1 at a concrete one-configuration build model. -/
theorem codemodel_resolution_positional_witness :
    cmResolvedW.configurations.length = cmW.configurations.length ∧
    ∀ i c0, cmW.configurations.get? i = some c0 →
      ∃ c, cmResolvedW.configurations.get? i = some c ∧
        ConfigResolvedFrom fsW (replyDir rW.build_dir) c0 c :=
  codemodel_resolution_positional fsW rW cmW cmResolvedW (by decide) (by rfl)

/-- C2: `read_object` for the build model either returns a fully
resolved object or an error value; an object it returns is never
partially resolved (resolved arrays shorter than reference arrays). -/
theorem read_object_atomic (fs : FS) (r : Reader) (cm : CodeModel)
    (h : read_object codeModelV2 fs r = .ok cm) : FullyResolved cm := by
  unfold read_object at h
  split at h
  · cases h
  · rename_i ref href
    split at h
    · cases h
    · rename_i obj hobj
      have hinit : ∀ c ∈ obj.configurations, c.targets = [] ∧ c.directories = [] := by
        unfold parse_reply at hobj
        split at hobj
        · cases hobj
        · split at hobj
          · rename_i j hj a hdec
            cases hobj
            exact decodeCodeModel_init hdec
          · cases hobj
        · cases hobj
      have hcore := resolve_positional_core hinit h
      intro c hc
      obtain ⟨i, hi⟩ := List.mem_iff_get?.mp hc
      obtain ⟨hlt, _⟩ := List.get?_eq_some.mp hi
      have hlt2 : i < obj.configurations.length := hcore.1 ▸ hlt
      obtain ⟨c', hc', hres⟩ := hcore.2 i (obj.configurations.get ⟨i, hlt2⟩)
        (List.get?_eq_get hlt2)
      have hcc : c' = c := by
        rw [hi] at hc'
        exact (Option.some.inj hc').symm
      subst hcc
      exact ⟨hres.2.2.1, hres.2.2.2.1⟩

/-- Witness for C2: on a concrete complete reply, `read_object` returns
the fully resolved build model. -/
theorem read_object_atomic_witness :
    read_object codeModelV2 fsW rW = .ok cmResolvedW ∧ FullyResolved cmResolvedW :=
  ⟨by rfl, read_object_atomic fsW rW cmResolvedW (by rfl)⟩

/-- C3 counterexample: a typed object body (a codemodel document) with
one extra unrecognized field decodes successfully — it does not fail
with a decode error naming the field, contrary to the claim. -/
theorem typed_object_unknown_field_accepted :
    decodeCodeModel cmJsonExtraW = .ok cmSmallW := by rfl

/-- C3 (amended): the index's fixed-shape portions (`CMake`,
`ReplyFileReference`) reject an extra unrecognized field with an error
naming that field, while the body of a typed object file loaded by
`read_object` (the codemodel) is decoded leniently: an extra
unrecognized field is ignored and the decode result is unchanged. -/
theorem strict_index_lenient_object_unknown_fields :
    (∀ o c k v, decodeCMake (.obj o) = .ok c →
       ((["version", "paths", "generator"] : List String).contains k) = false →
       decodeCMake (.obj (o ++ [(k, v)])) = .error ("unknown field " ++ k)) ∧
    (∀ o r k v, decodeReplyFileReference (.obj o) = .ok r →
       ((["kind", "version", "jsonFile"] : List String).contains k) = false →
       decodeReplyFileReference (.obj (o ++ [(k, v)]))
         = .error ("unknown field " ++ k)) ∧
    (∀ o m k v, decodeCodeModel (.obj o) = .ok m →
       ((["kind", "version", "paths", "configurations"] : List String).contains k)
         = false →
       decodeCodeModel (.obj (o ++ [(k, v)])) = .ok m) := by
  refine ⟨?_, ?_, ?_⟩
  · intro o c k v h hk
    exact decodeCMake_append_unknown h hk
  · intro o r k v h hk
    exact decodeReplyFileReference_append_unknown h hk
  · intro o m k v h hk
    rw [decodeCodeModel_append hk]
    exact h

/-- Witness for C3 (amended) at concrete documents. -/
theorem strict_index_lenient_object_unknown_fields_witness :
    decodeCMake (.obj (cmakeJsonFieldsW ++ [("extraField", .num 1)]))
      = .error ("unknown field " ++ "extraField") ∧
    decodeReplyFileReference (.obj (cmRefJsonFieldsW ++ [("extraField", .num 1)]))
      = .error ("unknown field " ++ "extraField") :=
  ⟨strict_index_lenient_object_unknown_fields.1 cmakeJsonFieldsW cmakeW
      "extraField" (.num 1) (by rfl) (by rfl),
   strict_index_lenient_object_unknown_fields.2.1 cmRefJsonFieldsW cmRefW
      "extraField" (.num 1) (by rfl) (by rfl)⟩

/-- C4 counterexample: a reply directory that exists but contains no
index file yields the same `none` outcome as an absent reply directory,
so the not-found outcome is not equivalent to the reply directory being
absent, and the two situations are not distinct outcomes. -/
theorem index_file_empty_reply_dir_not_distinct :
    fsExists fsNoIndexW (replyDir "bd") = true ∧
    index_file fsNoIndexW "bd" = none ∧
    fsExists fsEmptyBuildW (replyDir "bd") = false ∧
    index_file fsEmptyBuildW "bd" = none :=
  ⟨rfl, rfl, rfl, rfl⟩

/-- C4 (amended): `index_file` returns a path iff the reply directory
exists, its enumeration succeeds, and some entry is a regular
`index-*.json` file — the first such entry in enumeration order; it
returns `none` iff the reply directory is absent, or enumeration fails,
or no entry matches.  An absent reply directory and an index-less reply
directory produce the same `none` outcome. -/
theorem index_file_first_match_characterization (fs : FS) (bd : String) :
    (∀ p, index_file fs bd = some p ↔
       fsExists fs (replyDir bd) = true ∧
       ∃ entries, fsReadDir fs (replyDir bd) = some entries ∧
         ∃ i, ∃ hi : i < entries.length,
           indexEntryMatch (replyDir bd) (entries.get ⟨i, hi⟩) = some p ∧
           ∀ j (hj : j < entries.length), j < i →
             indexEntryMatch (replyDir bd) (entries.get ⟨j, hj⟩) = none) ∧
    (index_file fs bd = none ↔
       fsExists fs (replyDir bd) = false ∨
       fsReadDir fs (replyDir bd) = none ∨
       ∃ entries, fsReadDir fs (replyDir bd) = some entries ∧
         ∀ e ∈ entries, indexEntryMatch (replyDir bd) e = none) := by
  cases hex : fsExists fs (replyDir bd) with
  | false =>
    constructor
    · intro p
      simp [index_file, hex]
    · simp [index_file, hex]
  | true =>
    cases hrd : fsReadDir fs (replyDir bd) with
    | none =>
      constructor
      · intro p
        simp [index_file, hex, hrd]
      · simp [index_file, hex, hrd]
    | some entries =>
      constructor
      · intro p
        simp only [index_file, hex, hrd, Bool.not_true, Bool.false_eq_true,
                   if_false]
        rw [findSome?_eq_some_iff]
        simp
      · simp only [index_file, hex, hrd, Bool.not_true, Bool.false_eq_true,
                   if_false]
        rw [findSome?_eq_none_iff]
        simp

/-- Witness for C4 (amended): the characterization applied to an
index-less reply directory. -/
theorem index_file_first_match_characterization_witness :
    index_file fsNoIndexW "bd" = none :=
  (index_file_first_match_characterization fsNoIndexW "bd").2.mpr
    (Or.inr (Or.inr ⟨[], rfl, by simp⟩))

/-- C5: `read_object` selects the first catalog entry in catalog order
whose kind equals the requested kind's tag and whose version's major
component equals the required major; and when no such entry exists it
fails with the `ObjectNotFound` error value. -/
theorem read_object_first_match_or_not_found {α : Type} (T : ObjectImpl α)
    (fs : FS) (r : Reader) :
    ((∀ o ∈ r.index.objects, ¬(o.kind = T.kind ∧ o.version.major = T.major)) →
       read_object T fs r = .error .ObjectNotFound) ∧
    (∀ ref, find_object r T.kind T.major = some ref →
       ref.kind = T.kind ∧ ref.version.major = T.major ∧
       ∃ i, ∃ hi : i < r.index.objects.length,
         r.index.objects.get ⟨i, hi⟩ = ref ∧
         ∀ j (hj : j < r.index.objects.length), j < i →
           ¬((r.index.objects.get ⟨j, hj⟩).kind = T.kind ∧
             (r.index.objects.get ⟨j, hj⟩).version.major = T.major)) := by
  constructor
  · intro hnone
    have hfind : find_object r T.kind T.major = none := by
      unfold find_object
      rw [List.find?_eq_none]
      intro o ho
      have hno := hnone o ho
      simp only [Bool.and_eq_true, beq_iff_eq]
      exact fun hcon => hno ⟨hcon.1, hcon.2⟩
    unfold read_object
    rw [hfind]
  · intro ref h
    unfold find_object at h
    obtain ⟨i, hi, hget, hp, hprev⟩ := find?_eq_some_first h
    have hp' : ref.kind = T.kind ∧ ref.version.major = T.major := by
      simpa [Bool.and_eq_true, beq_iff_eq] using hp
    refine ⟨hp'.1, hp'.2, i, hi, hget, ?_⟩
    intro j hj hji hcon
    have hfalse := hprev j hj hji
    rw [Bool.eq_false_iff] at hfalse
    exact hfalse (by
      simp only [Bool.and_eq_true, beq_iff_eq]
      exact hcon)

/-- Witness for C5: requesting the codemodel from an index with an empty
catalog fails with `ObjectNotFound`. -/
theorem read_object_first_match_or_not_found_witness :
    read_object codeModelV2 fsW rEmptyW = .error .ObjectNotFound :=
  (read_object_first_match_or_not_found codeModelV2 fsW rEmptyW).1
    (by intro o ho; simp [rEmptyW] at ho)

/-- C6: in an empty build directory `is_available` is false and
`from_build_dir` fails with the protocol-unavailable error
(`FileApiNotGenerated`); in a build directory whose reply directory
contains only a malformed `index-broken.json`, `is_available` is true,
`index_file` finds that file, and `from_build_dir` fails with a decode
failure (`Parse`). -/
theorem availability_scenarios :
    is_available fsEmptyBuildW "bd" = false ∧
    from_build_dir fsEmptyBuildW "bd" = .error .FileApiNotGenerated ∧
    is_available fsBrokenW "bd" = true ∧
    index_file fsBrokenW "bd" = some "bd/.cmake/api/v1/reply/index-broken.json" ∧
    (∃ msg, from_build_dir fsBrokenW "bd" = .error (.Parse msg)) :=
  ⟨rfl, rfl, rfl, rfl, ⟨"expected value", rfl⟩⟩

/-- C7 counterexample: when `fs::read_dir` fails on an existing reply
directory that does hold an index file, `index_file` returns `none` and
`from_build_dir` reports `FileApiNotGenerated` — the I/O error is
swallowed into the not-found outcome instead of being surfaced as
`IO`. -/
theorem index_file_swallows_enumeration_io_error :
    fsReadDirFailW.readDirFails.contains (replyDir "bd") = true ∧
    fsExists fsReadDirFailW (replyDir "bd") = true ∧
    index_file fsReadDirFailW "bd" = none ∧
    from_build_dir fsReadDirFailW "bd" = .error .FileApiNotGenerated ∧
    ∀ msg, from_build_dir fsReadDirFailW "bd" ≠ .error (.IOError msg) := by
  refine ⟨rfl, rfl, rfl, rfl, ?_⟩
  intro msg h
  rw [show from_build_dir fsReadDirFailW "bd" = .error .FileApiNotGenerated
      from rfl] at h
  exact ReaderError.noConfusion (Except.error.inj h)

/-- C7 (amended): failures while reading and decoding reply files are
surfaced verbatim to the caller (`parse_reply` propagates the
`io::Error` of `read_to_string` unchanged), but an I/O error
encountered while enumerating the reply directory during index
location is converted by `index_file` into the not-found outcome, which
`from_build_dir` reports as `FileApiNotGenerated` rather than as an
`IO` error. -/
theorem error_propagation_except_enumeration {α : Type} (fs : FS)
    (bd p : String) (dec : Json → Except String α) :
    (∀ e, fsReadToString fs p = .error e → parse_reply dec fs p = .error e) ∧
    (fsExists fs (replyDir bd) = true → fsReadDir fs (replyDir bd) = none →
      index_file fs bd = none ∧
      from_build_dir fs bd = .error .FileApiNotGenerated) := by
  constructor
  · intro e he
    simp [parse_reply, he]
  · intro h1 h2
    have hidx : index_file fs bd = none := by
      simp [index_file, h1, h2]
    exact ⟨hidx, by simp [from_build_dir, hidx]⟩

/-- Witness for C7 (amended) at concrete filesystems. -/
theorem error_propagation_except_enumeration_witness :
    parse_reply decodeIndex fsPermW "bd/.cmake/api/v1/reply/index-1.json"
      = .error (.IOError "permission denied") ∧
    from_build_dir fsReadDirFailW "bd" = .error .FileApiNotGenerated :=
  ⟨(error_propagation_except_enumeration fsPermW "bd"
      "bd/.cmake/api/v1/reply/index-1.json" decodeIndex).1 _ (by rfl),
   ((error_propagation_except_enumeration fsReadDirFailW "bd" "x"
      decodeIndex).2 (by rfl) (by rfl)).2⟩

/-- C8 counterexample: with client data `D = null`, writing a stateful
query and parsing the written file does not yield `D` back — the
parsed query has no client data (`None`), so the round trip fails for
this `D`. -/
theorem stateful_roundtrip_null_client_fails :
    wNullW.client_name = some "client1" ∧
    wNullW.query.client = some .null ∧
    (∃ fs2, write_stateful wNullW fs0W "bd" = .ok fs2 ∧
      fsReadToString fs2 (pathJoin (pathJoin (queryDir "bd") "client1") "query.json")
        = .ok (.json (encodeQuery wNullW.query))) ∧
    decodeQuery (encodeQuery wNullW.query) = .ok { requests := [], client := none } ∧
    ({ requests := [], client := none } : Query) ≠ wNullW.query :=
  ⟨rfl, rfl, ⟨_, rfl, rfl⟩, rfl,
   fun h => Option.noConfusion (congrArg Query.client h)⟩

/-- C8 (amended): writing a stateful query with no client name set
fails with `ClientNameNotSet`; with a client name set, writing creates
`<client-name>/query.json` under the query directory, and — provided
the client data is not JSON `null` — parsing the written file yields
back exactly the requests and client data.  (For `D = null` the parsed
client data is `None` instead.) -/
theorem write_stateful_roundtrip (w : Writer) (fs : FS) (bd : String) :
    (w.client_name = none → write_stateful w fs bd = .error .ClientNameNotSet) ∧
    (∀ name, w.client_name = some name → QueryWF w.query →
      w.query.client ≠ some .null →
      ∃ fs2, write_stateful w fs bd = .ok fs2 ∧
        fsReadToString fs2 (pathJoin (pathJoin (queryDir bd) name) "query.json")
          = .ok (.json (encodeQuery w.query)) ∧
        decodeQuery (encodeQuery w.query) = .ok w.query) := by
  constructor
  · intro h
    simp [write_stateful, h]
  · intro name hname hwf hnull
    refine ⟨fsWriteFile (fsCreateDirAll fs (pathJoin (queryDir bd) name))
        (pathJoin (pathJoin (queryDir bd) name) "query.json")
        (.json (encodeQuery w.query)), ?_, ?_, ?_⟩
    · simp [write_stateful, hname]
    · rw [fsReadToString_write, if_pos rfl]
    · exact decodeQuery_encode hwf hnull

/-- Witness for C8 (amended) at a concrete writer. -/
theorem write_stateful_roundtrip_witness :
    ∃ fs2, write_stateful wGoodW fs0W "bd" = .ok fs2 ∧
      fsReadToString fs2 (pathJoin (pathJoin (queryDir "bd") "client1") "query.json")
        = .ok (.json (encodeQuery wGoodW.query)) ∧
      decodeQuery (encodeQuery wGoodW.query) = .ok wGoodW.query :=
  (write_stateful_roundtrip wGoodW fs0W "bd").2 "client1" rfl
    (by
      intro r hr
      have hre : r = reqW := by simpa [wGoodW] using hr
      subst hre
      exact ⟨by decide, fun m hm => by cases hm⟩)
    (by simp [wGoodW])

/-- C9: writing a stateless query creates, for every requested object
kind with required major version v, a file named exactly
`<kindTag>-v<major>` in the query directory whose content is empty;
re-deriving that name after writing finds an existing empty file. -/
theorem write_stateless_marker_files (w : Writer) (fs : FS) (bd : String) :
    ∃ fs2, write_stateless w fs bd = .ok fs2 ∧
      ∀ req ∈ w.query.requests,
        fsReadToString fs2
          (pathJoin (queryDir bd)
            (req.kind.as_str ++ "-v" ++ toString req.version.major))
          = .ok (.text "") := by
  refine ⟨_, rfl, ?_⟩
  intro req hreq
  exact foldl_write_mem
    (fun r => pathJoin (queryDir bd) (r.kind.as_str ++ "-v" ++ toString r.version.major))
    w.query.requests (fsCreateDirAll fs (queryDir bd)) req hreq

/-- Witness for C9: after requesting the codemodel, the marker file
`codemodel-v2` exists with empty content. -/
theorem write_stateless_marker_files_witness :
    ∃ fs2, write_stateless wGoodW fs0W "bd" = .ok fs2 ∧
      fsReadToString fs2 (pathJoin (queryDir "bd") "codemodel-v2")
        = .ok (.text "") := by
  obtain ⟨fs2, h1, h2⟩ := write_stateless_marker_files wGoodW fs0W "bd"
  exact ⟨fs2, h1, h2 reqW (by decide)⟩

/-- C10 counterexample: a reply-mapping value that matches none of the
three union shapes and is not `null` (here the number 42) makes the
decode fail instead of decoding to the catch-all `Unknown` variant, so
decoding the reply mapping is not total. -/
theorem replyfield_nonnull_unmatched_fails :
    decodeReplyField (.num 42)
      = .error "data did not match any variant of untagged enum ReplyField" := rfl

/-- C10 (amended): the reply-mapping value is decoded by trying the
variant shapes in fixed order — error record first, then catalog-entry
reference, then nested client map — and the trailing `Unknown` variant
matches only JSON `null`; a value matching none of the three shapes
fails decoding unless it is `null`. -/
theorem replyfield_untagged_order (j : Json) :
    (∀ e, decodeError j = .ok e → decodeReplyField j = .ok (.Error e)) ∧
    (∀ r m1, decodeError j = .error m1 → decodeReplyFileReference j = .ok r →
       decodeReplyField j = .ok (.ReplyFileReference r)) ∧
    (∀ m m1 m2, decodeError j = .error m1 → decodeReplyFileReference j = .error m2 →
       decodeClientMap j = .ok m → decodeReplyField j = .ok (.Client m)) ∧
    (decodeReplyField j = .ok .Unknown ↔
       (∃ m1, decodeError j = .error m1) ∧
       (∃ m2, decodeReplyFileReference j = .error m2) ∧
       (∃ m3, decodeClientMap j = .error m3) ∧ j = .null) ∧
    (∀ m1 m2 m3, decodeError j = .error m1 → decodeReplyFileReference j = .error m2 →
       decodeClientMap j = .error m3 → j ≠ .null →
       decodeReplyField j
         = .error "data did not match any variant of untagged enum ReplyField") := by
  refine ⟨?_, ?_, ?_, ?_, ?_⟩
  · intro e he
    simp [decodeReplyField, he]
  · intro r m1 h1 h2
    simp [decodeReplyField, h1, h2]
  · intro m m1 m2 h1 h2 h3
    simp [decodeReplyField, h1, h2, h3]
  · constructor
    · intro h
      cases h1 : decodeError j with
      | ok e => simp [decodeReplyField, h1] at h
      | error m1 =>
        cases h2 : decodeReplyFileReference j with
        | ok rr => simp [decodeReplyField, h1, h2] at h
        | error m2 =>
          cases h3 : decodeClientMap j with
          | ok m => simp [decodeReplyField, h1, h2, h3] at h
          | error m3 =>
            cases j with
            | null => exact ⟨⟨m1, rfl⟩, ⟨m2, rfl⟩, ⟨m3, rfl⟩, rfl⟩
            | bool b => simp [decodeReplyField, h1, h2, h3] at h
            | num n => simp [decodeReplyField, h1, h2, h3] at h
            | str s => simp [decodeReplyField, h1, h2, h3] at h
            | arr xs => simp [decodeReplyField, h1, h2, h3] at h
            | obj o => simp [decodeReplyField, h1, h2, h3] at h
    · rintro ⟨⟨m1, h1⟩, ⟨m2, h2⟩, ⟨m3, h3⟩, rfl⟩
      simp [decodeReplyField, h1, h2, h3]
  · intro m1 m2 m3 h1 h2 h3 hnull
    cases j with
    | null => exact absurd rfl hnull
    | bool b => simp [decodeReplyField, h1, h2, h3]
    | num n => simp [decodeReplyField, h1, h2, h3]
    | str s => simp [decodeReplyField, h1, h2, h3]
    | arr xs => simp [decodeReplyField, h1, h2, h3]
    | obj o => simp [decodeReplyField, h1, h2, h3]

/-- Witness for C10 (amended): `null` decodes to `Unknown`. -/
theorem replyfield_untagged_order_witness :
    decodeReplyField .null = .ok .Unknown :=
  (replyfield_untagged_order .null).2.2.2.1.mpr
    ⟨⟨"invalid type: expected object", rfl⟩,
     ⟨"invalid type: expected object", rfl⟩,
     ⟨"invalid type: expected map", rfl⟩, rfl⟩

end Claims

end CMakeFileApi
